import Mathlib

/-!
Verification of the catalog-to-feed mapping and caching pipeline of the
chatgpt-feed repository.  The TypeScript sources under `app/lib` (feed
mapper, feed service) and the public feed route are shallowly embedded as
executable Lean definitions: strings are processed as `List Char`, the D1
database is a pair of key-indexed tables, JavaScript falsy-coalescing
(`a || b`) is made explicit, and the effectful orchestration of
`generateFeed` is modelled with an oracle recording the outcome of each
external step.  All definitions are translated from the source files.
-/

/-! ## Characters and JavaScript-style string helpers -/

/-- The double-quote character. -/
def qMark : Char := Char.ofNat 34

/-- The backslash character. -/
def bSlash : Char := Char.ofNat 92

/-- The apostrophe character. -/
def apos : Char := Char.ofNat 39

/-- The opening curly brace character. -/
def lBrace : Char := Char.ofNat 123

/-- The closing curly brace character. -/
def rBrace : Char := Char.ofNat 125

/-- The newline character. -/
def nlChar : Char := Char.ofNat 10

/-- JavaScript `a || b` on strings: the empty string is falsy. -/
def jsOrS (a b : String) : String := if a = "" then b else a

/-- JavaScript `a || b` where `a` may be `null`/`undefined` (modelled as
`none`) or an empty string, both falsy. -/
def jsOrOS (a : Option String) (b : String) : String :=
  match a with
  | none => b
  | some s => if s = "" then b else s

/-- Split a character list at every occurrence of `sep` (the semantics of
JavaScript `String.prototype.split` with a one-character separator: the
empty input yields one empty field). -/
def splitOnChar (sep : Char) : List Char → List (List Char)
  | [] => [[]]
  | c :: r =>
    if c = sep then [] :: splitOnChar sep r
    else
      match splitOnChar sep r with
      | [] => [[c]]
      | l :: ls => (c :: l) :: ls

/-- Join a list of character lists with a one-character separator (the
semantics of JavaScript `Array.prototype.join`). -/
def interSep (sep : Char) : List (List Char) → List Char
  | [] => []
  | [p] => p
  | p :: q :: ps => p ++ sep :: interSep sep (q :: ps)

/-! ## Upstream catalog data model (`shopify-products.server.ts`)

`ShopifyProduct`, `ShopifyVariant` and `ShopInfo` follow the TypeScript
interfaces; GraphQL edge wrappers are flattened to plain lists and the
optional chaining targets (`image?.url`, `primaryDomain?.url`,
`billingAddress?.countryCodeV2`) become `Option`s.  The numeric variant
weight is modelled as a natural number (no claim depends on fractional
weights). -/

structure ShopifyImage where
  url : String
  altText : Option String
deriving DecidableEq, Repr

structure SelectedOption where
  name : String
  value : String
deriving DecidableEq, Repr

structure ShopifyVariant where
  id : String
  title : String
  sku : Option String
  barcode : Option String
  price : String
  compareAtPrice : Option String
  availableForSale : Bool
  inventoryQuantity : Option Int
  inventoryPolicy : String
  weight : Option Nat
  weightUnit : String
  selectedOptions : List SelectedOption
  image : Option ShopifyImage
deriving DecidableEq, Repr

structure ShopifyProduct where
  id : String
  title : String
  descriptionHtml : String
  description : String
  handle : String
  vendor : String
  productType : String
  tags : List String
  status : String
  onlineStoreUrl : Option String
  images : List ShopifyImage
  variants : List ShopifyVariant
deriving DecidableEq, Repr

structure ShopInfo where
  name : String
  url : String
  primaryDomain : Option String
  currencyCode : String
  billingCountry : Option String
  shipsToCountries : List String
deriving DecidableEq, Repr

/-! ## Feed settings (mapper-level view, `feed-mapper.server.ts`) -/

structure FeedSettings where
  shop : String
  enable_search : Bool
  enable_checkout : Bool
  seller_name : Option String
  seller_url : Option String
  privacy_policy_url : Option String
  terms_of_service_url : Option String
  return_policy_url : Option String
  accepts_returns : Bool
  return_deadline_days : Nat
  accepts_exchanges : Bool
  store_country : String
  target_countries : String
deriving DecidableEq, Repr

/-! ## Availability (`getAvailability`, feed-mapper.server.ts lines 87-108) -/

inductive Availability where
  | in_stock
  | out_of_stock
  | preorder
deriving DecidableEq, Repr

/-- `getAvailability` translated from the source: inventory policy
CONTINUE first, then the sellable flag, then a known non-positive
quantity, then the final ternary on the sellable flag. -/
def getAvailability (v : ShopifyVariant) : Availability :=
  if v.inventoryPolicy = "CONTINUE" then .in_stock
  else if v.availableForSale then .in_stock
  else if (match v.inventoryQuantity with
           | some q => decide (q ≤ 0)
           | none => false) then .out_of_stock
  else if v.availableForSale then .in_stock else .out_of_stock

/-- The availability derivation exactly as the specification words it:
always-sellable policy, else sellable flag, else known quantity at or
below zero, else mirror the sellable flag. -/
def availabilitySpec (v : ShopifyVariant) : Availability :=
  if v.inventoryPolicy = "CONTINUE" then .in_stock
  else if v.availableForSale = true then .in_stock
  else if (v.inventoryQuantity.isSome ∧ v.inventoryQuantity.getD 1 ≤ 0)
    then .out_of_stock
  else if v.availableForSale then .in_stock else .out_of_stock

/-! ## Text normalizer (`stripHtml`, feed-mapper.server.ts lines 172-183)

The regex pipeline of the source is embedded pass by pass on `List Char`:
tag spans `<[^>]*>` become a single space, the six literal entity
replacements run in source order, runs of whitespace collapse to one
space, and the result is trimmed.  Whitespace is modelled by the ASCII
part of the JavaScript `\s` class. -/

/-- ASCII whitespace as matched by the `\s` regex class. -/
def isWsB (c : Char) : Bool :=
  c = ' ' || c = Char.ofNat 9 || c = Char.ofNat 10 || c = Char.ofNat 11 ||
    c = Char.ofNat 12 || c = Char.ofNat 13

/-- One left-to-right pass of `replace(/<[^>]*>/g, " ")`: outside a tag,
`<` opens one; inside, characters accumulate until `>` closes it and
emits a space; an unclosed tag at end of input is kept verbatim (the
regex finds no match there). -/
def stripTagsAux : List Char → Option (List Char) → List Char
  | [], none => []
  | [], some buf => '<' :: buf.reverse
  | c :: r, none =>
    if c = '<' then stripTagsAux r (some [])
    else c :: stripTagsAux r none
  | c :: r, some buf =>
    if c = '>' then ' ' :: stripTagsAux r none
    else stripTagsAux r (some (c :: buf))

def stripTags (l : List Char) : List Char := stripTagsAux l none

/-- Global literal replacement, the semantics of
`replace(pat, rep)` with a global literal pattern: scan left to right,
non-overlapping matches.  The fuel starts at the input length and only
decreases faster than the input, so it never runs out. -/
def replaceAllAux (pat rep : List Char) : Nat → List Char → List Char
  | _, [] => []
  | 0, l => l
  | fuel + 1, c :: rest =>
    if pat.isPrefixOf (c :: rest) then
      rep ++ replaceAllAux pat rep fuel ((c :: rest).drop pat.length)
    else c :: replaceAllAux pat rep fuel rest

def replaceAll (pat rep l : List Char) : List Char :=
  replaceAllAux pat rep l.length l

/-- The six entity replacements, in the order the source chains them. -/
def decodeEntities (l : List Char) : List Char :=
  replaceAll "&#39;".data [apos]
    (replaceAll "&quot;".data [qMark]
      (replaceAll "&gt;".data ['>']
        (replaceAll "&lt;".data ['<']
          (replaceAll "&amp;".data ['&']
            (replaceAll "&nbsp;".data [' '] l)))))

/-- `replace(/\s+/g, " ")`: the flag records whether the previous
character was part of a whitespace run already replaced. -/
def collapseAux : Bool → List Char → List Char
  | _, [] => []
  | prev, c :: r =>
    if isWsB c then
      if prev then collapseAux true r else ' ' :: collapseAux true r
    else c :: collapseAux false r

def collapseWs (l : List Char) : List Char := collapseAux false l

/-- Remove trailing whitespace (the right half of `trim()`). -/
def trimRight : List Char → List Char
  | [] => []
  | c :: r =>
    match trimRight r with
    | [] => if isWsB c then [] else [c]
    | r2 => c :: r2

/-- `trim()`: leading then trailing whitespace removed. -/
def trimStr (l : List Char) : List Char := trimRight (l.dropWhile isWsB)

/-- `stripHtml` from the source: strip tags, decode the six entities,
collapse whitespace runs, trim. -/
def stripHtml (s : String) : String :=
  String.mk (trimStr (collapseWs (decodeEntities (stripTags s.data))))

/-- No two adjacent characters are both whitespace. -/
def noAdjWsB : List Char → Bool
  | a :: b :: r => (!(isWsB a && isWsB b)) && noAdjWsB (b :: r)
  | _ => true

/-- The normal form the specification requires of stripped text: every
whitespace character is a plain space, no two adjacent whitespace
characters, and no leading or trailing whitespace. -/
def wsNormalizedB (l : List Char) : Bool :=
  l.all (fun c => !isWsB c || c = ' ') && noAdjWsB l &&
  (match l.head? with | some c => !isWsB c | none => true) &&
  (match l.getLast? with | some c => !isWsB c | none => true)

/-! ## JSON serialization primitives (the semantics of `JSON.stringify`
for the flat objects this program emits: escaped strings, naturals and
booleans as members of one object, in insertion order) -/

/-- One hexadecimal digit. -/
def hexDigit (n : Nat) : Char :=
  if n < 10 then Char.ofNat (48 + n) else Char.ofNat (87 + n)

/-- How `JSON.stringify` escapes one character inside a string literal:
quote and backslash get a backslash, the named control characters get
their short escapes, other control characters a `\u00XX` escape, and
everything else passes through. -/
def escChar (c : Char) : List Char :=
  if c = qMark then [bSlash, qMark]
  else if c = bSlash then [bSlash, bSlash]
  else if c = Char.ofNat 8 then [bSlash, 'b']
  else if c = Char.ofNat 9 then [bSlash, 't']
  else if c = Char.ofNat 10 then [bSlash, 'n']
  else if c = Char.ofNat 12 then [bSlash, 'f']
  else if c = Char.ofNat 13 then [bSlash, 'r']
  else if c.toNat < 32 then
    [bSlash, 'u', '0', '0', hexDigit (c.toNat / 16), hexDigit (c.toNat % 16)]
  else [c]

/-- Escape a whole string body. -/
def escStr (l : List Char) : List Char := l.flatMap escChar

/-- Decimal digits of a natural number, most significant first.  The
fuel argument starts above the number and never runs out. -/
def natDigitsAux : Nat → Nat → List Char → List Char
  | 0, _, acc => acc
  | fuel + 1, n, acc =>
    if n < 10 then Char.ofNat (48 + n) :: acc
    else natDigitsAux fuel (n / 10) (Char.ofNat (48 + n % 10) :: acc)

def natDigits (n : Nat) : List Char := natDigitsAux (n + 1) n []

/-- A scalar JSON value as this feed serializes them. -/
inductive JVal where
  | str (s : String)
  | num (n : Nat)
  | jbool (b : Bool)
deriving DecidableEq, Repr

def renderVal : JVal → List Char
  | .str s => qMark :: escStr s.data ++ [qMark]
  | .num n => natDigits n
  | .jbool true => ['t', 'r', 'u', 'e']
  | .jbool false => ['f', 'a', 'l', 's', 'e']

def renderMember (m : String × JVal) : List Char :=
  qMark :: escStr m.1.data ++ qMark :: ':' :: renderVal m.2

/-- `JSON.stringify` of a flat object given its members in insertion
order. -/
def renderObj (ms : List (String × JVal)) : List Char :=
  lBrace :: interSep ',' (ms.map renderMember) ++ [rBrace]

/-! ## The feed record (`OpenAIFeedItem`, feed-mapper.server.ts lines
29-73); optional fields of the TypeScript interface are `Option`s and
are omitted from the serialized object when absent. -/

structure OpenAIFeedItem where
  is_eligible_search : Bool
  is_eligible_checkout : Bool
  item_id : String
  title : String
  description : String
  url : String
  condition : String
  product_category : String
  brand : String
  image_url : String
  additional_image_urls : Option String
  price : String
  sale_price : Option String
  availability : Availability
  group_id : String
  listing_has_variations : Bool
  variant_dict : Option String
  item_group_title : String
  color : Option String
  size : Option String
  offer_id : Option String
  weight : Option String
  item_weight_unit : Option String
  seller_name : String
  seller_url : String
  seller_privacy_policy : Option String
  seller_tos : Option String
  accepts_returns : Option Bool
  return_deadline_in_days : Option Nat
  accepts_exchanges : Option Bool
  return_policy : Option String
  target_countries : String
  store_country : String
deriving DecidableEq, Repr

/-! ## Field derivers (`feed-mapper.server.ts`) -/

/-- `extractShopifyId`: the segment after the last slash of a GID. -/
def extractShopifyId (gid : String) : String :=
  String.mk (((splitOnChar '/' gid.data).getLast?).getD [])

/-- `replace(/\/$/, "")`: drop exactly one trailing slash. -/
def stripTrailingSlash (s : String) : String :=
  match s.data.getLast? with
  | some c => if c = '/' then String.mk s.data.dropLast else s
  | none => s

/-- `buildProductUrl`. -/
def buildProductUrl (shopUrl handle : String) : String :=
  stripTrailingSlash shopUrl ++ "/products/" ++ handle

/-- `mapWeightUnit`: fixed table with "lb" default. -/
def mapWeightUnit (unit : String) : String :=
  if unit = "KILOGRAMS" then "kg"
  else if unit = "GRAMS" then "g"
  else if unit = "POUNDS" then "lb"
  else if unit = "OUNCES" then "oz"
  else "lb"

/-- Lower-case a string character by character. -/
def lowerStr (s : String) : String := String.mk (s.data.map Char.toLower)

/-- JavaScript object insertion with last-wins overwrite at the first
position of the key. -/
def dictInsert (k v : String) : List (String × String) → List (String × String)
  | [] => [(k, v)]
  | (k2, v2) :: r => if k2 = k then (k2, v) :: r else (k2, v2) :: dictInsert k v r

/-- `buildVariantDict`: absent for zero options or a lone
"Default Title" option, else the options keyed by lower-cased name. -/
def buildVariantDict (v : ShopifyVariant) : Option (List (String × String)) :=
  match v.selectedOptions with
  | [] => none
  | [o] =>
    if o.value = "Default Title" then none
    else some [(lowerStr o.name, o.value)]
  | _ =>
    some (v.selectedOptions.foldl (fun d o => dictInsert (lowerStr o.name) o.value d) [])

/-- `extractOption`: case-insensitive option-name lookup, hiding the
"Default Title" sentinel. -/
def extractOption (v : ShopifyVariant) (optionName : String) : Option String :=
  match v.selectedOptions.find? (fun o => lowerStr o.name = lowerStr optionName) with
  | some o => if o.value = "Default Title" then none else some o.value
  | none => none

/-- A present, non-empty (truthy) optional string. -/
def optNonEmpty (a : Option String) : Option String :=
  match a with
  | some s => if s = "" then none else some s
  | none => none

/-- A decimal-number prefix of a string as (mantissa, scale), the exact
value `parseFloat` reads off price strings: optional sign, integer
digits, optional dot and fraction digits; trailing characters are
ignored, and `none` models NaN (no leading number). -/
def takeDigits : List Char → List Char × List Char
  | [] => ([], [])
  | c :: r =>
    if c.isDigit then
      let p := takeDigits r
      (c :: p.1, p.2)
    else ([], c :: r)

def digitsVal (ds : List Char) : Nat :=
  ds.foldl (fun a c => a * 10 + (c.toNat - 48)) 0

def parseDecL (l : List Char) : Option (Int × Nat) :=
  let sl : Int × List Char :=
    match l with
    | '-' :: r => (-1, r)
    | '+' :: r => (1, r)
    | _ => (1, l)
  let ip := takeDigits sl.2
  match ip.2 with
  | '.' :: r =>
    let fp := takeDigits r
    if ip.1 = [] ∧ fp.1 = [] then none
    else some (sl.1 * ((digitsVal ip.1) * 10 ^ fp.1.length + digitsVal fp.1 : Nat), fp.1.length)
  | _ => if ip.1 = [] then none else some (sl.1 * digitsVal ip.1, 0)

def parseDec (s : String) : Option (Int × Nat) := parseDecL s.data

/-- Comparison of two parsed decimals by cross-multiplication:
`a` is strictly greater than `b` as a rational number. -/
def crossGt (a b : Int × Nat) : Bool :=
  decide (b.1 * (10 : Int) ^ a.2 < a.1 * (10 : Int) ^ b.2)

/-- The rational value of a parsed decimal. -/
def decVal (a : Int × Nat) : ℚ := (a.1 : ℚ) / (10 : ℚ) ^ a.2

/-- The price and optional sale price exactly as the conditional spread
of the source computes them: a truthy compare-at price that parses
strictly greater than the variant price swaps in as the advertised
price, the variant price becoming the sale price. -/
def priceSaleOf (variant : ShopifyVariant) (currency : String) : String × Option String :=
  match variant.compareAtPrice with
  | none => (variant.price ++ " " ++ currency, none)
  | some c =>
    if c = "" then (variant.price ++ " " ++ currency, none)
    else
      match parseDec c, parseDec variant.price with
      | some dc, some dp =>
        if crossGt dc dp then
          (c ++ " " ++ currency, some (variant.price ++ " " ++ currency))
        else (variant.price ++ " " ++ currency, none)
      | _, _ => (variant.price ++ " " ++ currency, none)

/-- The resolved main image: the variant image if truthy, else the
first product image, else the empty string (which triggers the skip). -/
def mainImageOf (product : ShopifyProduct) (variant : ShopifyVariant) : String :=
  jsOrOS (variant.image.map (fun i => i.url))
    (jsOrOS (product.images.head?.map (fun i => i.url)) "")

/-- Whether the listing has real variations: more than one variant, or a
first option value that is not the "Default Title" sentinel. -/
def hasVariationsOf (product : ShopifyProduct) (variant : ShopifyVariant) : Bool :=
  decide (product.variants.length > 1) ||
    (decide (variant.selectedOptions.length > 0) &&
      (match variant.selectedOptions.head? with
       | some o => decide (o.value ≠ "Default Title")
       | none => true))

/-- The record built for one eligible (product, variant) pair — the body
of `mapVariantToFeedItem` after its two skip guards. -/
def buildFeedItem (product : ShopifyProduct) (variant : ShopifyVariant)
    (shopInfo : ShopInfo) (settings : FeedSettings) : OpenAIFeedItem :=
  let productId := extractShopifyId product.id
  let variantId := extractShopifyId variant.id
  let shopUrl := jsOrOS settings.seller_url (jsOrOS shopInfo.primaryDomain shopInfo.url)
  let cleanShopUrl := stripTrailingSlash shopUrl
  let productUrl := jsOrOS product.onlineStoreUrl (buildProductUrl cleanShopUrl product.handle)
  let mainImage := mainImageOf product variant
  let additionalImages := (product.images.map (fun i => i.url)).filter (fun u => u ≠ mainImage)
  let description :=
    jsOrS product.description (jsOrS (stripHtml product.descriptionHtml) product.title)
  let currency := jsOrS shopInfo.currencyCode "USD"
  let hasVariations := hasVariationsOf product variant
  let ps := priceSaleOf variant currency
  let retOn : Bool :=
    match settings.return_policy_url with
    | some u => decide (u ≠ "")
    | none => false
  let weightPos : Bool :=
    match variant.weight with
    | some w => decide (w > 0)
    | none => false
  { is_eligible_search := settings.enable_search
    is_eligible_checkout := settings.enable_checkout
    item_id := jsOrOS variant.sku (productId ++ "-" ++ variantId)
    title := if hasVariations then product.title ++ " - " ++ variant.title else product.title
    description := description
    url := productUrl
    condition := "new"
    product_category := jsOrS product.productType "Uncategorized"
    brand := jsOrS product.vendor (jsOrOS settings.seller_name "")
    image_url := mainImage
    additional_image_urls :=
      if additionalImages.isEmpty then none
      else some (String.mk (interSep ',' (additionalImages.map String.data)))
    price := ps.1
    sale_price := ps.2
    availability := getAvailability variant
    group_id := productId
    listing_has_variations := hasVariations
    variant_dict := (buildVariantDict variant).map
      (fun d => String.mk (renderObj (d.map (fun kv => (kv.1, JVal.str kv.2)))))
    item_group_title := product.title
    color := optNonEmpty (extractOption variant "color")
    size := optNonEmpty (extractOption variant "size")
    offer_id := some (jsOrOS variant.sku (productId ++ "-" ++ variantId))
    weight := if weightPos then some (String.mk (natDigits (variant.weight.getD 0))) else none
    item_weight_unit := if weightPos then some (mapWeightUnit variant.weightUnit) else none
    seller_name := jsOrOS settings.seller_name (jsOrS shopInfo.name "")
    seller_url := cleanShopUrl
    seller_privacy_policy := optNonEmpty settings.privacy_policy_url
    seller_tos := optNonEmpty settings.terms_of_service_url
    accepts_returns := if retOn then some settings.accepts_returns else none
    return_deadline_in_days := if retOn then some settings.return_deadline_days else none
    accepts_exchanges := if retOn then some settings.accepts_exchanges else none
    return_policy := if retOn then settings.return_policy_url else none
    target_countries := jsOrS settings.target_countries "US"
    store_country := jsOrS settings.store_country (jsOrOS shopInfo.billingCountry "US") }

/-- `mapVariantToFeedItem`: skip non-active products, then skip pairs
with no resolvable main image, else build the record. -/
def mapVariantToFeedItem (product : ShopifyProduct) (variant : ShopifyVariant)
    (shopInfo : ShopInfo) (settings : FeedSettings) : Option OpenAIFeedItem :=
  if product.status ≠ "ACTIVE" then none
  else if mainImageOf product variant = "" then none
  else some (buildFeedItem product variant shopInfo settings)

/-- `mapProductsToFeed`: every product in order, every variant within it
in order, keeping the non-skipped records. -/
def mapProductsToFeed (products : List ShopifyProduct) (shopInfo : ShopInfo)
    (settings : FeedSettings) : List OpenAIFeedItem :=
  products.flatMap (fun p => p.variants.filterMap (fun v => mapVariantToFeedItem p v shopInfo settings))

/-! ## Concrete fixtures used by the witnesses -/

def exVariant : ShopifyVariant :=
  { id := "gid://shopify/ProductVariant/2"
    title := "Default Title"
    sku := some "SKU1"
    barcode := none
    price := "8.00"
    compareAtPrice := some "10.00"
    availableForSale := true
    inventoryQuantity := some 3
    inventoryPolicy := "DENY"
    weight := none
    weightUnit := "POUNDS"
    selectedOptions := [{ name := "Title", value := "Default Title" }]
    image := none }

def exProduct : ShopifyProduct :=
  { id := "gid://shopify/Product/1"
    title := "Mug"
    descriptionHtml := ""
    description := "Desc"
    handle := "mug"
    vendor := "V"
    productType := ""
    tags := []
    status := "ACTIVE"
    onlineStoreUrl := none
    images := [{ url := "https://x/m.jpg", altText := none }]
    variants := [exVariant] }

def exShopInfo : ShopInfo :=
  { name := "Shop"
    url := "https://s.example"
    primaryDomain := some "https://s.example"
    currencyCode := "USD"
    billingCountry := some "US"
    shipsToCountries := ["US"] }

def exSettings : FeedSettings :=
  { shop := "s.myshopify.com"
    enable_search := true
    enable_checkout := false
    seller_name := none
    seller_url := none
    privacy_policy_url := none
    terms_of_service_url := none
    return_policy_url := none
    accepts_returns := true
    return_deadline_days := 30
    accepts_exchanges := true
    store_country := "US"
    target_countries := "US" }

/-- The record the mapper produces for the fixture pair (checked by
evaluation in the witnesses). -/
def exItem : OpenAIFeedItem :=
  { is_eligible_search := true
    is_eligible_checkout := false
    item_id := "SKU1"
    title := "Mug"
    description := "Desc"
    url := "https://s.example/products/mug"
    condition := "new"
    product_category := "Uncategorized"
    brand := "V"
    image_url := "https://x/m.jpg"
    additional_image_urls := none
    price := "10.00 USD"
    sale_price := some "8.00 USD"
    availability := Availability.in_stock
    group_id := "1"
    listing_has_variations := false
    variant_dict := none
    item_group_title := "Mug"
    color := none
    size := none
    offer_id := some "SKU1"
    weight := none
    item_weight_unit := none
    seller_name := "Shop"
    seller_url := "https://s.example"
    seller_privacy_policy := none
    seller_tos := none
    accepts_returns := none
    return_deadline_in_days := none
    accepts_exchanges := none
    return_policy := none
    target_countries := "US"
    store_country := "US" }

/-! ## Serialization (`feedItemsToJsonl`, feed-mapper.server.ts lines
351-353): `JSON.stringify` per record, joined with newlines.  The member
list reproduces the insertion order of the source object literal: an
overwritten key (`price` under the sale spread) keeps its original
position, a newly spread key (`sale_price`) is appended where the
spread occurs. -/

def optMember (k : String) (v : Option JVal) : List (String × JVal) :=
  match v with
  | some jv => [(k, jv)]
  | none => []

def availabilityStr : Availability → String
  | .in_stock => "in_stock"
  | .out_of_stock => "out_of_stock"
  | .preorder => "preorder"

def itemMembers (it : OpenAIFeedItem) : List (String × JVal) :=
  [("is_eligible_search", JVal.jbool it.is_eligible_search),
   ("is_eligible_checkout", JVal.jbool it.is_eligible_checkout),
   ("item_id", JVal.str it.item_id),
   ("title", JVal.str it.title),
   ("description", JVal.str it.description),
   ("url", JVal.str it.url),
   ("condition", JVal.str it.condition),
   ("product_category", JVal.str it.product_category),
   ("brand", JVal.str it.brand),
   ("image_url", JVal.str it.image_url)] ++
  optMember "additional_image_urls" (it.additional_image_urls.map JVal.str) ++
  [("price", JVal.str it.price)] ++
  optMember "sale_price" (it.sale_price.map JVal.str) ++
  [("availability", JVal.str (availabilityStr it.availability)),
   ("group_id", JVal.str it.group_id),
   ("listing_has_variations", JVal.jbool it.listing_has_variations)] ++
  optMember "variant_dict" (it.variant_dict.map JVal.str) ++
  [("item_group_title", JVal.str it.item_group_title)] ++
  optMember "color" (it.color.map JVal.str) ++
  optMember "size" (it.size.map JVal.str) ++
  optMember "offer_id" (it.offer_id.map JVal.str) ++
  optMember "weight" (it.weight.map JVal.str) ++
  optMember "item_weight_unit" (it.item_weight_unit.map JVal.str) ++
  [("seller_name", JVal.str it.seller_name),
   ("seller_url", JVal.str it.seller_url)] ++
  optMember "seller_privacy_policy" (it.seller_privacy_policy.map JVal.str) ++
  optMember "seller_tos" (it.seller_tos.map JVal.str) ++
  optMember "accepts_returns" (it.accepts_returns.map JVal.jbool) ++
  optMember "return_deadline_in_days" (it.return_deadline_in_days.map JVal.num) ++
  optMember "accepts_exchanges" (it.accepts_exchanges.map JVal.jbool) ++
  optMember "return_policy" (it.return_policy.map JVal.str) ++
  [("target_countries", JVal.str it.target_countries),
   ("store_country", JVal.str it.store_country)]

/-- `JSON.stringify(item)`. -/
def stringifyItem (it : OpenAIFeedItem) : List Char := renderObj (itemMembers it)

/-- `feedItemsToJsonl`: one JSON object per line, newline-joined. -/
def feedItemsToJsonl (items : List OpenAIFeedItem) : String :=
  String.mk (interSep nlChar (items.map stringifyItem))

/-! ## A checker for the JSON-object lines the serializer emits: one
object whose members are strings (with standard escapes), naturals or
booleans.  Acceptance means the line is a well-formed JSON object of
that fragment. -/

def isHexDigitB (c : Char) : Bool :=
  (decide (48 ≤ c.toNat) && decide (c.toNat ≤ 57)) ||
  (decide (97 ≤ c.toNat) && decide (c.toNat ≤ 102)) ||
  (decide (65 ≤ c.toNat) && decide (c.toNat ≤ 70))

/-- Consume the rest of a JSON string literal (after its opening quote):
escape pairs, `\uXXXX` escapes, no raw control characters, up to the
closing quote; returns the remainder. -/
def skipStrBody : List Char → Option (List Char)
  | [] => none
  | c :: r =>
    if c = qMark then some r
    else if c = bSlash then
      match r with
      | [] => none
      | e :: r2 =>
        if e = 'u' then
          match r2 with
          | h1 :: h2 :: h3 :: h4 :: r3 =>
            if isHexDigitB h1 && isHexDigitB h2 && isHexDigitB h3 && isHexDigitB h4
            then skipStrBody r3 else none
          | _ => none
        else if e = qMark ∨ e = bSlash ∨ e = '/' ∨ e = 'b' ∨ e = 'f' ∨
               e = 'n' ∨ e = 'r' ∨ e = 't'
        then skipStrBody r2
        else none
    else if c.toNat < 32 then none
    else skipStrBody r

def skipDigits : List Char → List Char
  | [] => []
  | c :: r => if c.isDigit then skipDigits r else c :: r

/-- Consume one scalar JSON value, returning the remainder. -/
def parseVal : List Char → Option (List Char)
  | [] => none
  | c :: r =>
    if c = qMark then skipStrBody r
    else if c = 't' then
      match r with
      | 'r' :: 'u' :: 'e' :: r2 => some r2
      | _ => none
    else if c = 'f' then
      match r with
      | 'a' :: 'l' :: 's' :: 'e' :: r2 => some r2
      | _ => none
    else if c.isDigit then some (skipDigits r)
    else none

/-- Consume one `"key":value` member. -/
def parseMember : List Char → Option (List Char)
  | [] => none
  | c :: r =>
    if c = qMark then
      match skipStrBody r with
      | some (c2 :: r2) => if c2 = ':' then parseVal r2 else none
      | _ => none
    else none

/-- Consume members separated by commas up to the closing brace. -/
def membersAux : Nat → List Char → Option (List Char)
  | 0, _ => none
  | fuel + 1, l =>
    match parseMember l with
    | some (c :: r) =>
      if c = ',' then membersAux fuel r
      else if c = rBrace then some r
      else none
    | _ => none

/-- The whole line is one JSON object with at least one member. -/
def isJsonObjLine (l : List Char) : Bool :=
  match l with
  | c :: r =>
    if c = lBrace then
      match membersAux (r.length + 1) r with
      | some [] => true
      | _ => false
    else false
  | [] => false

/-! ## Persistent state (`feed-service.server.ts`)

The two D1 tables are modelled as key-indexed partial maps of rows; the
stored row types follow the migration schema (booleans as 0/1 integers,
nullable text columns as `Option String`).  Timestamps are naturals. -/

structure SettingsRow where
  shop : String
  enable_search : Nat
  enable_checkout : Nat
  seller_name : Option String
  seller_url : Option String
  privacy_policy_url : Option String
  terms_of_service_url : Option String
  return_policy_url : Option String
  accepts_returns : Nat
  return_deadline_days : Nat
  accepts_exchanges : Nat
  store_country : String
  target_countries : String
  feed_generated_at : Option Nat
  product_count : Nat
  created_at : Nat
  updated_at : Nat
deriving DecidableEq, Repr

structure CacheRow where
  shop : String
  feed_data : Option String
  product_count : Nat
  generated_at : Nat
deriving DecidableEq, Repr

structure Db where
  settings : String → Option SettingsRow
  cache : String → Option CacheRow

def setSettingsRow (db : Db) (shop : String) (row : SettingsRow) : Db :=
  { db with settings := fun s => if s = shop then some row else db.settings s }

def setCacheRow (db : Db) (shop : String) (row : CacheRow) : Db :=
  { db with cache := fun s => if s = shop then some row else db.cache s }

/-- The row the `INSERT` of `getFeedSettings` creates: the insert lists
(shop, enable_search=1, enable_checkout=0, store_country, target
countries); the remaining columns take the schema defaults of the
migration (returns accepted, 30-day deadline, exchanges accepted, NULL
urls, zero product count, current timestamps). -/
def defaultSettingsRow (shop : String) (now : Nat) : SettingsRow :=
  { shop := shop
    enable_search := 1
    enable_checkout := 0
    seller_name := none
    seller_url := none
    privacy_policy_url := none
    terms_of_service_url := none
    return_policy_url := none
    accepts_returns := 1
    return_deadline_days := 30
    accepts_exchanges := 1
    store_country := "US"
    target_countries := "US"
    feed_generated_at := none
    product_count := 0
    created_at := now
    updated_at := now }

/-- The typed view `getFeedSettings` returns for an existing row, with
the source's coercions: `Boolean(...)` on the 0/1 integers,
`|| 30` on the deadline, `|| "US"` on the country fields. -/
def settingsOfRow (row : SettingsRow) : FeedSettings :=
  { shop := row.shop
    enable_search := row.enable_search ≠ 0
    enable_checkout := row.enable_checkout ≠ 0
    seller_name := row.seller_name
    seller_url := row.seller_url
    privacy_policy_url := row.privacy_policy_url
    terms_of_service_url := row.terms_of_service_url
    return_policy_url := row.return_policy_url
    accepts_returns := row.accepts_returns ≠ 0
    return_deadline_days := if row.return_deadline_days = 0 then 30 else row.return_deadline_days
    accepts_exchanges := row.accepts_exchanges ≠ 0
    store_country := jsOrS row.store_country "US"
    target_countries := jsOrS row.target_countries "US" }

/-- The defaults object the create branch of `getFeedSettings` returns
verbatim (source lines 57-71). -/
def defaultFeedSettings (shop : String) : FeedSettings :=
  { shop := shop
    enable_search := true
    enable_checkout := false
    seller_name := none
    seller_url := none
    privacy_policy_url := none
    terms_of_service_url := none
    return_policy_url := none
    accepts_returns := true
    return_deadline_days := 30
    accepts_exchanges := true
    store_country := "US"
    target_countries := "US" }

/-- `getFeedSettings`: return the typed existing row, or insert the
default row and return the hard-coded defaults. -/
def getFeedSettings (db : Db) (shop : String) (now : Nat) : FeedSettings × Db :=
  match db.settings shop with
  | some row => (settingsOfRow row, db)
  | none => (defaultFeedSettings shop, setSettingsRow db shop (defaultSettingsRow shop now))

/-- A partial settings update: `none` is an absent (undefined) field;
for nullable text columns the present value is itself optional. -/
structure PartialSettings where
  enable_search : Option Bool := none
  enable_checkout : Option Bool := none
  seller_name : Option (Option String) := none
  seller_url : Option (Option String) := none
  privacy_policy_url : Option (Option String) := none
  terms_of_service_url : Option (Option String) := none
  return_policy_url : Option (Option String) := none
  accepts_returns : Option Bool := none
  return_deadline_days : Option Nat := none
  accepts_exchanges : Option Bool := none
  store_country : Option String := none
  target_countries : Option String := none
deriving DecidableEq, Repr

/-- `fields.length === 0`: no recognized field is present. -/
def PartialSettings.isEmptyUpdate (u : PartialSettings) : Bool :=
  u.enable_search.isNone && u.enable_checkout.isNone && u.seller_name.isNone &&
  u.seller_url.isNone && u.privacy_policy_url.isNone && u.terms_of_service_url.isNone &&
  u.return_policy_url.isNone && u.accepts_returns.isNone &&
  u.return_deadline_days.isNone && u.accepts_exchanges.isNone &&
  u.store_country.isNone && u.target_countries.isNone

/-- The effect of the generated `UPDATE ... SET` statement on the row:
each present field overwritten (booleans as 0/1), plus `updated_at`. -/
def applyUpdate (row : SettingsRow) (u : PartialSettings) (now : Nat) : SettingsRow :=
  { row with
    enable_search := match u.enable_search with
      | some b => if b then 1 else 0
      | none => row.enable_search
    enable_checkout := match u.enable_checkout with
      | some b => if b then 1 else 0
      | none => row.enable_checkout
    seller_name := match u.seller_name with
      | some v => v
      | none => row.seller_name
    seller_url := match u.seller_url with
      | some v => v
      | none => row.seller_url
    privacy_policy_url := match u.privacy_policy_url with
      | some v => v
      | none => row.privacy_policy_url
    terms_of_service_url := match u.terms_of_service_url with
      | some v => v
      | none => row.terms_of_service_url
    return_policy_url := match u.return_policy_url with
      | some v => v
      | none => row.return_policy_url
    accepts_returns := match u.accepts_returns with
      | some b => if b then 1 else 0
      | none => row.accepts_returns
    return_deadline_days := match u.return_deadline_days with
      | some v => v
      | none => row.return_deadline_days
    accepts_exchanges := match u.accepts_exchanges with
      | some b => if b then 1 else 0
      | none => row.accepts_exchanges
    store_country := match u.store_country with
      | some v => v
      | none => row.store_country
    target_countries := match u.target_countries with
      | some v => v
      | none => row.target_countries
    updated_at := now }

/-- `updateFeedSettings`: ensure the row exists via `getFeedSettings`,
return without writing when no recognized field is present, else issue
the UPDATE for the present fields plus `updated_at`. -/
def updateFeedSettings (db : Db) (shop : String) (u : PartialSettings) (now : Nat) : Db :=
  let db1 := (getFeedSettings db shop now).2
  if u.isEmptyUpdate then db1
  else
    match db1.settings shop with
    | some row => setSettingsRow db1 shop (applyUpdate row u now)
    | none => db1

/-- `getCachedFeed`: absent unless a row exists with a truthy (non-null,
non-empty) payload. -/
structure CachedFeedResult where
  feedData : String
  productCount : Nat
  generatedAt : Nat
deriving DecidableEq, Repr

def getCachedFeed (db : Db) (shop : String) : Option CachedFeedResult :=
  match db.cache shop with
  | none => none
  | some row =>
    match row.feed_data with
    | none => none
    | some s =>
      if s = "" then none
      else some { feedData := s, productCount := row.product_count,
                  generatedAt := row.generated_at }

/-! ## The orchestrator (`generateFeed`).  Each external step that can
fail is an oracle field: the two upstream fetches are `Except` results,
the two store writes a success flag.  The `try`/`catch` of the source
maps any failure to a `success := false` result with the state as
already mutated by the steps that did run. -/

structure GenOracle where
  shopInfoRes : Except String ShopInfo
  productsRes : Except String (List ShopifyProduct)
  cacheWriteOk : Bool
  settingsWriteOk : Bool

structure GenResult where
  success : Bool
  productCount : Nat
  error : Option String
deriving DecidableEq, Repr

def generateFeed (db : Db) (shop : String) (o : GenOracle) (now : Nat) :
    GenResult × Db :=
  let sdb := getFeedSettings db shop now
  match o.shopInfoRes with
  | .error e => ({ success := false, productCount := 0, error := some e }, sdb.2)
  | .ok shopInfo =>
    match o.productsRes with
    | .error e => ({ success := false, productCount := 0, error := some e }, sdb.2)
    | .ok products =>
      let feedItems := mapProductsToFeed products shopInfo sdb.1
      let jsonl := feedItemsToJsonl feedItems
      if o.cacheWriteOk then
        let db2 := setCacheRow sdb.2 shop
          { shop := shop, feed_data := some jsonl,
            product_count := feedItems.length, generated_at := now }
        if o.settingsWriteOk then
          let db3 :=
            match db2.settings shop with
            | some row => setSettingsRow db2 shop
                { row with feed_generated_at := some now,
                           product_count := feedItems.length, updated_at := now }
            | none => db2
          ({ success := true, productCount := feedItems.length, error := none }, db3)
        else ({ success := false, productCount := 0,
                error := some "settings update failed" }, db2)
      else ({ success := false, productCount := 0,
              error := some "cache write failed" }, sdb.2)

def exEmptyDb : Db := { settings := fun _ => none, cache := fun _ => none }

def exOracleOkEmpty : GenOracle :=
  { shopInfoRes := .ok exShopInfo, productsRes := .ok [],
    cacheWriteOk := true, settingsWriteOk := true }

def exOracleSettingsFail : GenOracle :=
  { shopInfoRes := .ok exShopInfo, productsRes := .ok [],
    cacheWriteOk := true, settingsWriteOk := false }

def exSettingsRow : SettingsRow := defaultSettingsRow "s.myshopify.com" 1

def exDbWithSettings : Db :=
  { settings := fun s => if s = "s.myshopify.com" then some exSettingsRow else none
    cache := fun _ => none }

def exPartial : PartialSettings := { enable_search := some false }

/-! ## Theorems -/

/-- Claim C4: for every variant, availability follows the priority order
(CONTINUE policy, then sellable flag, then known non-positive quantity,
then mirroring the sellable flag), and the value "preorder" is never
produced. -/
theorem getAvailability_spec_no_preorder :
    ∀ v : ShopifyVariant,
      getAvailability v = availabilitySpec v ∧
      getAvailability v ≠ Availability.preorder := by
  intro v
  constructor
  · unfold getAvailability availabilitySpec
    rcases hq : v.inventoryQuantity with _ | q
    · simp [hq]
    · by_cases h : q ≤ 0 <;> simp [hq, h]
  · unfold getAvailability
    split
    · simp
    · split
      · simp
      · split
        · simp
        · simp

theorem noAdjWsB_cons (c : Char) (l : List Char) :
    noAdjWsB (c :: l) =
      ((match l.head? with
        | some d => !(isWsB c && isWsB d)
        | none => true) && noAdjWsB l) := by
  cases l <;> simp [noAdjWsB]

theorem mem_collapseAux {c : Char} :
    ∀ (l : List Char) (prev : Bool), c ∈ collapseAux prev l →
      isWsB c = true → c = ' ' := by
  intro l
  induction l with
  | nil => intro prev h; simp [collapseAux] at h
  | cons a r ih =>
    intro prev h hws
    by_cases ha : isWsB a = true
    · cases prev with
      | true =>
        simp [collapseAux, ha] at h
        exact ih true h hws
      | false =>
        simp [collapseAux, ha] at h
        rcases h with h | h
        · exact h
        · exact ih true h hws
    · simp [collapseAux, ha] at h
      rcases h with h | h
      · subst h; simp [ha] at hws
      · exact ih false h hws

theorem collapseAux_true_head :
    ∀ (l : List Char) (c : Char), (collapseAux true l).head? = some c →
      isWsB c = false := by
  intro l
  induction l with
  | nil => intro c h; simp [collapseAux] at h
  | cons a r ih =>
    intro c h
    by_cases ha : isWsB a = true
    · simp [collapseAux, ha] at h
      exact ih c h
    · simp [collapseAux, ha] at h
      rw [← h]
      simpa using ha

theorem noAdj_collapseAux :
    ∀ (l : List Char) (prev : Bool), noAdjWsB (collapseAux prev l) = true := by
  intro l
  induction l with
  | nil => intro prev; simp [collapseAux, noAdjWsB]
  | cons a r ih =>
    intro prev
    by_cases ha : isWsB a = true
    · cases prev with
      | true => simpa [collapseAux, ha] using ih true
      | false =>
        simp only [collapseAux, ha, if_true, if_false, Bool.false_eq_true]
        rw [noAdjWsB_cons]
        rcases hh : (collapseAux true r).head? with _ | d
        · simp [ih true]
        · have hd := collapseAux_true_head r d hh
          simp [hd, ih true]
    · simp only [collapseAux, ha, Bool.false_eq_true, if_false]
      rw [noAdjWsB_cons]
      rcases hh : (collapseAux false r).head? with _ | d
      · simp [ih false]
      · simp [ha, ih false]

theorem noAdjWsB_tail {c : Char} {l : List Char}
    (h : noAdjWsB (c :: l) = true) : noAdjWsB l = true := by
  rw [noAdjWsB_cons] at h
  exact (Bool.and_eq_true _ _ |>.mp h).2

theorem noAdj_dropWhile (p : Char → Bool) :
    ∀ l : List Char, noAdjWsB l = true → noAdjWsB (l.dropWhile p) = true := by
  intro l
  induction l with
  | nil => intro h; exact h
  | cons a r ih =>
    intro h
    by_cases hp : p a = true
    · simp only [List.dropWhile, hp]
      exact ih (noAdjWsB_tail h)
    · simpa [List.dropWhile, hp] using h

theorem mem_dropWhile {c : Char} (p : Char → Bool) :
    ∀ l : List Char, c ∈ l.dropWhile p → c ∈ l := by
  intro l
  induction l with
  | nil => intro h; simp at h
  | cons a r ih =>
    intro h
    by_cases hp : p a = true
    · simp only [List.dropWhile, hp] at h
      exact List.mem_cons_of_mem a (ih h)
    · simpa [List.dropWhile, hp] using h

theorem head_dropWhile_not (p : Char → Bool) :
    ∀ (l : List Char) (c : Char), (l.dropWhile p).head? = some c →
      p c = false := by
  intro l
  induction l with
  | nil => intro c h; simp at h
  | cons a r ih =>
    intro c h
    by_cases hp : p a = true
    · simp only [List.dropWhile, hp] at h
      exact ih c h
    · simp only [List.dropWhile, hp, Bool.false_eq_true, if_false,
        List.head?_cons, Option.some.injEq] at h
      rw [← h]
      simpa using hp

theorem mem_trimRight {c : Char} :
    ∀ l : List Char, c ∈ trimRight l → c ∈ l := by
  intro l
  induction l with
  | nil => intro h; simp [trimRight] at h
  | cons a r ih =>
    intro h
    rcases hr : trimRight r with _ | ⟨b, r2⟩
    · simp only [trimRight, hr] at h
      by_cases ha : isWsB a = true
      · simp [ha] at h
      · simp [ha] at h
        simp [h]
    · simp only [trimRight, hr] at h
      rcases List.mem_cons.mp h with h | h
      · simp [h]
      · have hm : c ∈ trimRight r := by rw [hr]; exact h
        exact List.mem_cons_of_mem a (ih hm)

theorem trimRight_head? :
    ∀ l : List Char, trimRight l ≠ [] → (trimRight l).head? = l.head? := by
  intro l
  cases l with
  | nil => intro h; simp [trimRight] at h
  | cons a r =>
    intro h
    rcases hr : trimRight r with _ | ⟨b, r2⟩
    · simp only [trimRight, hr] at h ⊢
      by_cases ha : isWsB a = true
      · simp [ha] at h
      · simp [ha]
    · simp [trimRight, hr]

theorem noAdj_trimRight :
    ∀ l : List Char, noAdjWsB l = true → noAdjWsB (trimRight l) = true := by
  intro l
  induction l with
  | nil => intro h; exact h
  | cons a r ih =>
    intro h
    rcases hr : trimRight r with _ | ⟨b, r2⟩
    · simp only [trimRight, hr]
      by_cases ha : isWsB a = true
      · simp [ha, noAdjWsB]
      · simp [ha, noAdjWsB]
    · simp only [trimRight, hr]
      rw [noAdjWsB_cons]
      have htail : noAdjWsB (b :: r2) = true := by
        rw [← hr]; exact ih (noAdjWsB_tail h)
      have hhead : (trimRight r).head? = r.head? :=
        trimRight_head? r (by rw [hr]; simp)
      rw [hr] at hhead
      rcases hrr : r.head? with _ | d
      · rw [hrr] at hhead; simp at hhead
      · rw [hrr] at hhead
        simp only [List.head?_cons, Option.some.injEq] at hhead
        subst hhead
        rw [noAdjWsB_cons] at h
        rw [hrr] at h
        have hadj := (Bool.and_eq_true _ _ |>.mp h).1
        simp only [] at hadj
        simp at hadj
        simp [htail]
        tauto

theorem trimRight_getLast_not_ws :
    ∀ (l : List Char) (c : Char), (trimRight l).getLast? = some c →
      isWsB c = false := by
  intro l
  induction l with
  | nil => intro c h; simp [trimRight] at h
  | cons a r ih =>
    intro c h
    rcases hr : trimRight r with _ | ⟨b, r2⟩
    · simp only [trimRight, hr] at h
      by_cases ha : isWsB a = true
      · simp [ha] at h
      · simp [ha, List.getLast?] at h
        rw [← h]
        simpa using ha
    · simp only [trimRight, hr] at h
      rw [List.getLast?_cons_cons] at h
      exact ih c (by rw [hr]; exact h)

theorem wsNormalized_trimStr_collapse (x : List Char) :
    wsNormalizedB (trimStr (collapseWs x)) = true := by
  have hAdjC : noAdjWsB (collapseAux false x) = true := noAdj_collapseAux x false
  have hAdjD : noAdjWsB ((collapseAux false x).dropWhile isWsB) = true :=
    noAdj_dropWhile isWsB _ hAdjC
  have hAdjT : noAdjWsB (trimRight ((collapseAux false x).dropWhile isWsB)) = true :=
    noAdj_trimRight _ hAdjD
  unfold wsNormalizedB trimStr collapseWs
  refine (Bool.and_eq_true _ _).mpr ⟨(Bool.and_eq_true _ _).mpr ⟨(Bool.and_eq_true _ _).mpr ⟨?_, ?_⟩, ?_⟩, ?_⟩
  · refine List.all_eq_true.mpr ?_
    intro c hc
    by_cases hws : isWsB c = true
    · have hm : c ∈ (collapseAux false x).dropWhile isWsB := mem_trimRight _ hc
      have hm2 : c ∈ collapseAux false x := mem_dropWhile isWsB _ hm
      have : c = ' ' := mem_collapseAux _ false hm2 hws
      simp [this]
    · simp [hws]
  · exact hAdjT
  · rcases hh : (trimRight ((collapseAux false x).dropWhile isWsB)).head? with _ | c
    · simp
    · have hne : trimRight ((collapseAux false x).dropWhile isWsB) ≠ [] := by
        intro hnil; rw [hnil] at hh; simp at hh
      have := trimRight_head? _ hne
      rw [this] at hh
      have := head_dropWhile_not isWsB _ c hh
      simp [this]
  · rcases hh : (trimRight ((collapseAux false x).dropWhile isWsB)).getLast? with _ | c
    · simp
    · have := trimRight_getLast_not_ws _ c hh
      simp [this]

/-- Claim C5: stripHtml removes every tag span (each span is replaced by
whitespace that the later pass collapses), decodes exactly the six
entities nbsp, amp, lt, gt, quot and the numeric apostrophe (and no
other entity), collapses every whitespace run to one space, trims both
ends, and maps the empty string to the empty string; it is a total
function, and every output is in whitespace normal form. -/
theorem stripHtml_normalization :
    stripHtml "" = ""
  ∧ (∀ s : String, wsNormalizedB (stripHtml s).data = true)
  ∧ stripHtml "<p>Hello</p>" = "Hello"
  ∧ stripHtml "a<b>c" = "a c"
  ∧ stripHtml "a&nbsp;b" = "a b"
  ∧ stripHtml "a&amp;b" = "a&b"
  ∧ stripHtml "a&lt;b" = "a<b"
  ∧ stripHtml "a&gt;b" = "a>b"
  ∧ stripHtml "a&quot;b" = String.mk ['a', qMark, 'b']
  ∧ stripHtml "a&#39;b" = String.mk ['a', apos, 'b']
  ∧ stripHtml "a&copy;b" = "a&copy;b"
  ∧ stripHtml "  a \t\n b  " = "a b" := by
  refine ⟨by decide, ?_, by decide, by decide, by decide, by decide, by decide,
    by decide, by decide, by decide, by decide, by decide⟩
  intro s
  unfold stripHtml
  exact wsNormalized_trimStr_collapse _

theorem crossGt_iff (a b : Int × Nat) : crossGt a b = true ↔ decVal b < decVal a := by
  unfold crossGt decVal
  rw [decide_eq_true_iff]
  rw [div_lt_div_iff₀ (by positivity) (by positivity)]
  constructor
  · intro h; exact_mod_cast h
  · intro h; exact_mod_cast h

theorem parseDec_some_ne_empty {c : String} {d : Int × Nat}
    (h : parseDec c = some d) : c ≠ "" := by
  intro hc
  subst hc
  simp [parseDec, parseDecL, takeDigits] at h

theorem priceSaleOf_swap (v : ShopifyVariant) (cur : String) (c : String)
    (dc dp : Int × Nat) (hc : v.compareAtPrice = some c)
    (hdc : parseDec c = some dc) (hdp : parseDec v.price = some dp)
    (hlt : decVal dp < decVal dc) :
    priceSaleOf v cur = (c ++ " " ++ cur, some (v.price ++ " " ++ cur)) := by
  unfold priceSaleOf
  rw [hc]
  dsimp only
  rw [if_neg (parseDec_some_ne_empty hdc)]
  rw [hdc, hdp]
  dsimp only
  rw [if_pos ((crossGt_iff dc dp).mpr hlt)]

theorem priceSaleOf_noswap (v : ShopifyVariant) (cur : String)
    (h : v.compareAtPrice = none ∨
      ∃ c dc dp, v.compareAtPrice = some c ∧ parseDec c = some dc ∧
        parseDec v.price = some dp ∧ decVal dc ≤ decVal dp) :
    priceSaleOf v cur = (v.price ++ " " ++ cur, none) := by
  unfold priceSaleOf
  rcases h with h | ⟨c, dc, dp, hc, hdc, hdp, hle⟩
  · rw [h]
  · rw [hc]
    dsimp only
    rw [if_neg (parseDec_some_ne_empty hdc)]
    rw [hdc, hdp]
    dsimp only
    rw [if_neg ?_]
    intro hgt
    exact absurd ((crossGt_iff dc dp).mp hgt) (not_lt.mpr hle)

theorem mapVariant_eq_some {p : ShopifyProduct} {v : ShopifyVariant}
    {si : ShopInfo} {st : FeedSettings} {item : OpenAIFeedItem}
    (h : mapVariantToFeedItem p v si st = some item) :
    item = buildFeedItem p v si st ∧ p.status = "ACTIVE" ∧ mainImageOf p v ≠ "" := by
  unfold mapVariantToFeedItem at h
  by_cases h1 : p.status ≠ "ACTIVE"
  · rw [if_pos h1] at h; exact absurd h (by simp)
  · rw [if_neg h1] at h
    by_cases h2 : mainImageOf p v = ""
    · rw [if_pos h2] at h; exact absurd h (by simp)
    · rw [if_neg h2] at h
      refine ⟨?_, not_not.mp h1, h2⟩
      injection h with h3
      exact h3.symm

/-- Claim C3: the price-swap law.  When the compare-at price is present
and parses strictly greater (as a decimal number) than the variant
price, the record advertises the compare-at amount as price and the
variant price as sale price, both with the same currency suffix; when
the compare-at price is absent or not greater, sale_price is absent and
price is the variant price with the currency suffix. -/
theorem mapVariant_price_swap :
    ∀ (p : ShopifyProduct) (v : ShopifyVariant) (si : ShopInfo)
      (st : FeedSettings) (item : OpenAIFeedItem),
      mapVariantToFeedItem p v si st = some item →
      ((∀ c dc dp, v.compareAtPrice = some c → parseDec c = some dc →
          parseDec v.price = some dp → decVal dp < decVal dc →
          item.price = c ++ " " ++ jsOrS si.currencyCode "USD" ∧
          item.sale_price = some (v.price ++ " " ++ jsOrS si.currencyCode "USD")) ∧
       ((v.compareAtPrice = none ∨
          ∃ c dc dp, v.compareAtPrice = some c ∧ parseDec c = some dc ∧
            parseDec v.price = some dp ∧ decVal dc ≤ decVal dp) →
          item.sale_price = none ∧
          item.price = v.price ++ " " ++ jsOrS si.currencyCode "USD")) := by
  intro p v si st item h
  obtain ⟨hitem, -, -⟩ := mapVariant_eq_some h
  subst hitem
  constructor
  · intro c dc dp hc hdc hdp hlt
    have hps := priceSaleOf_swap v (jsOrS si.currencyCode "USD") c dc dp hc hdc hdp hlt
    constructor
    · show (buildFeedItem p v si st).price = _
      simp only [buildFeedItem, hps]
    · show (buildFeedItem p v si st).sale_price = _
      simp only [buildFeedItem, hps]
  · intro hno
    have hps := priceSaleOf_noswap v (jsOrS si.currencyCode "USD") hno
    constructor
    · show (buildFeedItem p v si st).sale_price = _
      simp only [buildFeedItem, hps]
    · show (buildFeedItem p v si st).price = _
      simp only [buildFeedItem, hps]

/-- Claim C7: a (product, variant) pair is skipped (silently, no record)
exactly when the product status is not ACTIVE or the resolved main image
is empty; consequently the batch mapper emits nothing for non-active
products, and every emitted record carries a non-empty image URL. -/
theorem mapVariant_skip_iff :
    (∀ p v si st, mapVariantToFeedItem p v si st = none ↔
        (p.status ≠ "ACTIVE" ∨ mainImageOf p v = "")) ∧
    (∀ ps si st, mapProductsToFeed ps si st =
        mapProductsToFeed (ps.filter (fun p => p.status == "ACTIVE")) si st) ∧
    (∀ ps si st it, it ∈ mapProductsToFeed ps si st → it.image_url ≠ "") := by
  refine ⟨?_, ?_, ?_⟩
  · intro p v si st
    unfold mapVariantToFeedItem
    by_cases h1 : p.status ≠ "ACTIVE"
    · simp [h1]
    · by_cases h2 : mainImageOf p v = "" <;> simp [h1, h2]
  · intro ps si st
    induction ps with
    | nil => rfl
    | cons p t ih =>
      by_cases hs : p.status = "ACTIVE"
      · simp only [mapProductsToFeed, List.filter_cons, hs, List.flatMap_cons] at *
        simp only [beq_self_eq_true, if_true]
        rw [List.flatMap_cons]
        congr 1
      · have hb : (p.status == "ACTIVE") = false := by
          simp [hs]
        simp only [mapProductsToFeed, List.filter_cons, hb, List.flatMap_cons] at *
        have hnil : (p.variants.filterMap fun v => mapVariantToFeedItem p v si st) = [] := by
          rw [List.filterMap_eq_nil_iff]
          intro v hv
          unfold mapVariantToFeedItem
          rw [if_pos hs]
        rw [hnil, List.nil_append]
        exact ih
  · intro ps si st it hmem
    unfold mapProductsToFeed at hmem
    rcases List.mem_flatMap.mp hmem with ⟨p, hp, hin⟩
    rcases List.mem_filterMap.mp hin with ⟨v, hv, hsome⟩
    obtain ⟨hitem, -, himg⟩ := mapVariant_eq_some hsome
    subst hitem
    show (buildFeedItem p v si st).image_url ≠ ""
    simp only [buildFeedItem]
    exact himg

/-- Claim C10: every emitted record has equal item_id and offer_id:
the variant SKU when present and non-empty, else the string
productId-variantId built from the reduced identifiers. -/
theorem mapVariant_item_offer_id :
    ∀ p v si st item, mapVariantToFeedItem p v si st = some item →
      item.offer_id = some item.item_id ∧
      (∀ s, v.sku = some s → s ≠ "" → item.item_id = s) ∧
      ((v.sku = none ∨ v.sku = some "") →
        item.item_id = extractShopifyId p.id ++ "-" ++ extractShopifyId v.id) := by
  intro p v si st item h
  obtain ⟨hitem, -, -⟩ := mapVariant_eq_some h
  subst hitem
  refine ⟨?_, ?_, ?_⟩
  · show (buildFeedItem p v si st).offer_id = some (buildFeedItem p v si st).item_id
    simp only [buildFeedItem]
  · intro s hs hne
    show (buildFeedItem p v si st).item_id = s
    simp only [buildFeedItem, hs, jsOrOS]
    rw [if_neg hne]
  · intro hcase
    show (buildFeedItem p v si st).item_id = _
    rcases hcase with hc | hc <;> simp [buildFeedItem, hc, jsOrOS]

/-- Witness for C3 at the fixture: compare-at 10.00 against price 8.00
swaps, giving price "10.00 USD" and sale price "8.00 USD". -/
theorem mapVariant_price_swap_witness :
    exItem.price = "10.00" ++ " " ++ jsOrS exShopInfo.currencyCode "USD" ∧
    exItem.sale_price = some ("8.00" ++ " " ++ jsOrS exShopInfo.currencyCode "USD") :=
  (mapVariant_price_swap exProduct exVariant exShopInfo exSettings exItem
      (by decide)).1 "10.00" (1000, 2) (800, 2) (by decide) (by decide)
    (by decide) (by norm_num [decVal])

/-- Witness for C10 at the fixture: offer id equals item id, both the
SKU. -/
theorem mapVariant_item_offer_id_witness :
    exItem.offer_id = some exItem.item_id ∧ exItem.item_id = "SKU1" :=
  ⟨(mapVariant_item_offer_id exProduct exVariant exShopInfo exSettings exItem
      (by decide)).1,
   (mapVariant_item_offer_id exProduct exVariant exShopInfo exSettings exItem
      (by decide)).2.1 "SKU1" (by decide) (by decide)⟩

theorem digitChar_isDigit (m : Nat) (h : m < 10) :
    (Char.ofNat (48 + m)).isDigit = true := by
  interval_cases m <;> decide

theorem natDigitsAux_spec :
    ∀ (fuel n : Nat) (acc : List Char), n < fuel →
      ∃ ds, natDigitsAux fuel n acc = ds ++ acc ∧ ds ≠ [] ∧
        ∀ c ∈ ds, c.isDigit = true := by
  intro fuel
  induction fuel with
  | zero => intro n acc h; omega
  | succ f ih =>
    intro n acc h
    by_cases h10 : n < 10
    · refine ⟨[Char.ofNat (48 + n)], ?_, by simp, ?_⟩
      · simp [natDigitsAux, h10]
      · intro c hc
        simp at hc
        subst hc
        exact digitChar_isDigit n h10
    · have hrec : n / 10 < f := by
        have h1 : n / 10 < n := Nat.div_lt_self (by omega) (by omega)
        omega
      obtain ⟨ds, hds, hne, hdig⟩ := ih (n / 10) (Char.ofNat (48 + n % 10) :: acc) hrec
      refine ⟨ds ++ [Char.ofNat (48 + n % 10)], ?_, by simp, ?_⟩
      · simp only [natDigitsAux, h10, if_false, hds, List.append_assoc,
          List.singleton_append]
      · intro c hc
        rcases List.mem_append.mp hc with hc | hc
        · exact hdig c hc
        · simp at hc
          subst hc
          exact digitChar_isDigit _ (Nat.mod_lt _ (by omega))

theorem natDigits_spec (n : Nat) :
    natDigits n ≠ [] ∧ ∀ c ∈ natDigits n, c.isDigit = true := by
  obtain ⟨ds, hds, hne, hdig⟩ := natDigitsAux_spec (n + 1) n [] (by omega)
  unfold natDigits
  rw [hds, List.append_nil]
  exact ⟨hne, hdig⟩

theorem hexDigit_ne_nl (m : Nat) (h : m < 16) : hexDigit m ≠ nlChar := by
  interval_cases m <;> decide

theorem escChar_no_nl (c : Char) : nlChar ∉ escChar c := by
  unfold escChar
  split_ifs with h1 h2 h3 h4 h5 h6 h7 h8
  · decide
  · decide
  · decide
  · decide
  · decide
  · decide
  · decide
  · intro hmem
    have hdiv : c.toNat / 16 < 16 := Nat.div_lt_of_lt_mul (by omega)
    have hmod : c.toNat % 16 < 16 := Nat.mod_lt _ (by omega)
    simp only [List.mem_cons, List.not_mem_nil, or_false] at hmem
    rcases hmem with h | h | h | h | h | h
    · exact absurd h (by decide)
    · exact absurd h (by decide)
    · exact absurd h (by decide)
    · exact absurd h (by decide)
    · exact hexDigit_ne_nl _ hdiv h.symm
    · exact hexDigit_ne_nl _ hmod h.symm
  · intro hmem
    simp only [List.mem_cons, List.not_mem_nil, or_false] at hmem
    subst hmem
    exact h8 (by decide)

theorem escStr_no_nl (l : List Char) : nlChar ∉ escStr l := by
  intro h
  rcases List.mem_flatMap.mp h with ⟨c, -, hc⟩
  exact escChar_no_nl c hc

theorem isDigit_ne_nl {c : Char} (h : c.isDigit = true) : c ≠ nlChar := by
  intro he
  subst he
  exact absurd h (by decide)

theorem renderVal_no_nl (v : JVal) : nlChar ∉ renderVal v := by
  cases v with
  | str s =>
    intro h
    have h2 : nlChar ∈ qMark :: (escStr s.data ++ [qMark]) := h
    rcases List.mem_cons.mp h2 with h3 | h3
    · exact absurd h3 (by decide)
    · rcases List.mem_append.mp h3 with h4 | h4
      · exact escStr_no_nl _ h4
      · rcases List.mem_cons.mp h4 with h5 | h5
        · exact absurd h5 (by decide)
        · simp at h5
  | num n =>
    intro h
    exact isDigit_ne_nl ((natDigits_spec n).2 _ h) rfl
  | jbool b => cases b <;> decide

theorem renderMember_no_nl (m : String × JVal) : nlChar ∉ renderMember m := by
  intro h
  have h2 : nlChar ∈ qMark :: (escStr m.1.data ++ qMark :: ':' :: renderVal m.2) := h
  rcases List.mem_cons.mp h2 with h3 | h3
  · exact absurd h3 (by decide)
  · rcases List.mem_append.mp h3 with h4 | h4
    · exact escStr_no_nl _ h4
    · rcases List.mem_cons.mp h4 with h5 | h5
      · exact absurd h5 (by decide)
      · rcases List.mem_cons.mp h5 with h6 | h6
        · exact absurd h6 (by decide)
        · exact renderVal_no_nl _ h6

theorem mem_interSep (sep : Char) :
    ∀ (ps : List (List Char)) (c : Char), c ∈ interSep sep ps →
      c = sep ∨ ∃ p ∈ ps, c ∈ p := by
  intro ps
  induction ps with
  | nil => intro c h; simp [interSep] at h
  | cons p t ih =>
    cases t with
    | nil =>
      intro c h
      right
      exact ⟨p, by simp, by simpa [interSep] using h⟩
    | cons q t2 =>
      intro c h
      simp only [interSep] at h
      rcases List.mem_append.mp h with h | h
      · right; exact ⟨p, by simp, h⟩
      · rcases List.mem_cons.mp h with h | h
        · left; exact h
        · rcases ih c h with h | ⟨p2, hp2, hc⟩
          · left; exact h
          · right
            exact ⟨p2, List.mem_cons_of_mem p hp2, hc⟩

theorem renderObj_no_nl (ms : List (String × JVal)) : nlChar ∉ renderObj ms := by
  intro h
  have h2 : nlChar ∈ lBrace :: (interSep ',' (ms.map renderMember) ++ [rBrace]) := h
  rcases List.mem_cons.mp h2 with h3 | h3
  · exact absurd h3 (by decide)
  · rcases List.mem_append.mp h3 with h4 | h4
    · rcases mem_interSep ',' _ _ h4 with h5 | ⟨p, hp, hc⟩
      · exact absurd h5 (by decide)
      · rcases List.mem_map.mp hp with ⟨m, -, hm⟩
        exact renderMember_no_nl m (hm ▸ hc)
    · rcases List.mem_cons.mp h4 with h5 | h5
      · exact absurd h5 (by decide)
      · simp at h5

theorem splitOnChar_no_sep (sep : Char) :
    ∀ l : List Char, sep ∉ l → splitOnChar sep l = [l] := by
  intro l
  induction l with
  | nil => intro h; rfl
  | cons c r ih =>
    intro h
    have hc : ¬(c = sep) := fun he => h (he ▸ List.mem_cons_self c r)
    simp only [splitOnChar, if_neg hc]
    rw [ih (fun hm => h (List.mem_cons_of_mem c hm))]

theorem splitOnChar_append (sep : Char) :
    ∀ (a b : List Char), sep ∉ a →
      splitOnChar sep (a ++ sep :: b) = a :: splitOnChar sep b := by
  intro a
  induction a with
  | nil =>
    intro b h
    show splitOnChar sep (sep :: b) = [] :: splitOnChar sep b
    simp [splitOnChar]
  | cons c a2 ih =>
    intro b h
    have hc : ¬(c = sep) := fun he => h (he ▸ List.mem_cons_self c a2)
    show splitOnChar sep (c :: (a2 ++ sep :: b)) = (c :: a2) :: splitOnChar sep b
    simp only [splitOnChar, if_neg hc, List.append_eq]
    rw [ih b (fun hm => h (List.mem_cons_of_mem c hm))]

theorem splitOnChar_interSep (sep : Char) :
    ∀ ps : List (List Char), ps ≠ [] → (∀ p ∈ ps, sep ∉ p) →
      splitOnChar sep (interSep sep ps) = ps := by
  intro ps
  induction ps with
  | nil => intro h; exact absurd rfl h
  | cons p t ih =>
    cases t with
    | nil =>
      intro _ hall
      exact splitOnChar_no_sep sep p (hall p (by simp))
    | cons q t2 =>
      intro _ hall
      show splitOnChar sep (p ++ sep :: interSep sep (q :: t2)) = p :: q :: t2
      rw [splitOnChar_append sep p _ (hall p (by simp))]
      rw [ih (by simp) (fun p2 hp2 => hall p2 (List.mem_cons_of_mem p hp2))]

theorem count_interSep (sep : Char) :
    ∀ ps : List (List Char), (∀ p ∈ ps, sep ∉ p) →
      (interSep sep ps).count sep = ps.length - 1 := by
  intro ps
  induction ps with
  | nil => intro h; rfl
  | cons p t ih =>
    cases t with
    | nil =>
      intro hall
      show p.count sep = 0
      exact List.count_eq_zero.mpr (hall p (by simp))
    | cons q t2 =>
      intro hall
      show (p ++ sep :: interSep sep (q :: t2)).count sep = (q :: t2).length
      rw [List.count_append]
      rw [List.count_eq_zero.mpr (hall p (by simp))]
      rw [List.count_cons_self]
      rw [ih (fun p2 hp2 => hall p2 (List.mem_cons_of_mem p hp2))]
      simp

theorem interSep_getLast (sep : Char) :
    ∀ ps : List (List Char), ps ≠ [] → (∀ p ∈ ps, p.getLast? = some rBrace) →
      (interSep sep ps).getLast? = some rBrace := by
  intro ps
  induction ps with
  | nil => intro h; exact absurd rfl h
  | cons p t ih =>
    cases t with
    | nil =>
      intro _ hall
      exact hall p (by simp)
    | cons q t2 =>
      intro _ hall
      have hrest : (interSep sep (q :: t2)).getLast? = some rBrace :=
        ih (by simp) (fun p2 h2 => hall p2 (List.mem_cons_of_mem p h2))
      have hne : interSep sep (q :: t2) ≠ [] := by
        intro h0
        rw [h0] at hrest
        simp at hrest
      show (p ++ sep :: interSep sep (q :: t2)).getLast? = some rBrace
      rw [List.getLast?_append]
      obtain ⟨x, xs, hx⟩ := List.exists_cons_of_ne_nil hne
      rw [hx, List.getLast?_cons_cons, ← hx, hrest]
      rfl

theorem renderObj_getLast (ms : List (String × JVal)) :
    (renderObj ms).getLast? = some rBrace := by
  show (lBrace :: (interSep ',' (ms.map renderMember) ++ [rBrace])).getLast? = some rBrace
  rw [show lBrace :: (interSep ',' (ms.map renderMember) ++ [rBrace]) =
      (lBrace :: interSep ',' (ms.map renderMember)) ++ [rBrace] from rfl]
  rw [List.getLast?_concat]

theorem isHex_hexDigit (m : Nat) (h : m < 16) : isHexDigitB (hexDigit m) = true := by
  interval_cases m <;> decide

theorem skipStrBody_escChar (c : Char) (X : List Char) :
    skipStrBody (escChar c ++ X) = skipStrBody X := by
  unfold escChar
  split_ifs with h1 h2 h3 h4 h5 h6 h7 h8
  · rw [skipStrBody.eq_def]
    simp [show ¬(bSlash = qMark) from by decide, show ¬(qMark = 'u') from by decide]
  · rw [skipStrBody.eq_def]
    simp [show ¬(bSlash = qMark) from by decide, show ¬(bSlash = 'u') from by decide]
  · rw [skipStrBody.eq_def]
    simp [show ¬(bSlash = qMark) from by decide, show ¬('b' = 'u') from by decide,
      show ('b' = qMark ∨ 'b' = bSlash ∨ 'b' = '/' ∨ 'b' = 'b' ∨ 'b' = 'f' ∨
        'b' = 'n' ∨ 'b' = 'r' ∨ 'b' = 't') from by decide]
  · rw [skipStrBody.eq_def]
    simp [show ¬(bSlash = qMark) from by decide, show ¬('t' = 'u') from by decide,
      show ('t' = qMark ∨ 't' = bSlash ∨ 't' = '/' ∨ 't' = 'b' ∨ 't' = 'f' ∨
        't' = 'n' ∨ 't' = 'r' ∨ 't' = 't') from by decide]
  · rw [skipStrBody.eq_def]
    simp [show ¬(bSlash = qMark) from by decide, show ¬('n' = 'u') from by decide,
      show ('n' = qMark ∨ 'n' = bSlash ∨ 'n' = '/' ∨ 'n' = 'b' ∨ 'n' = 'f' ∨
        'n' = 'n' ∨ 'n' = 'r' ∨ 'n' = 't') from by decide]
  · rw [skipStrBody.eq_def]
    simp [show ¬(bSlash = qMark) from by decide, show ¬('f' = 'u') from by decide,
      show ('f' = qMark ∨ 'f' = bSlash ∨ 'f' = '/' ∨ 'f' = 'b' ∨ 'f' = 'f' ∨
        'f' = 'n' ∨ 'f' = 'r' ∨ 'f' = 't') from by decide]
  · rw [skipStrBody.eq_def]
    simp [show ¬(bSlash = qMark) from by decide, show ¬('r' = 'u') from by decide,
      show ('r' = qMark ∨ 'r' = bSlash ∨ 'r' = '/' ∨ 'r' = 'b' ∨ 'r' = 'f' ∨
        'r' = 'n' ∨ 'r' = 'r' ∨ 'r' = 't') from by decide]
  · have hdiv : c.toNat / 16 < 16 := Nat.div_lt_of_lt_mul (by omega)
    have hmod : c.toNat % 16 < 16 := Nat.mod_lt _ (by omega)
    rw [skipStrBody.eq_def]
    simp [show ¬(bSlash = qMark) from by decide,
      show isHexDigitB '0' = true from by decide,
      isHex_hexDigit _ hdiv, isHex_hexDigit _ hmod]
  · rw [skipStrBody.eq_def]
    simp [h1, h2, h8]

theorem escStr_cons (c : Char) (l : List Char) :
    escStr (c :: l) = escChar c ++ escStr l := by
  simp [escStr]

theorem skipStrBody_escStr :
    ∀ (l : List Char) (rest : List Char),
      skipStrBody (escStr l ++ qMark :: rest) = some rest := by
  intro l
  induction l with
  | nil =>
    intro rest
    show skipStrBody (qMark :: rest) = some rest
    rw [skipStrBody.eq_def]
    simp
  | cons c l2 ih =>
    intro rest
    rw [escStr_cons, List.append_assoc, skipStrBody_escChar]
    exact ih rest

theorem isDigit_ne_qMark {c : Char} (h : c.isDigit = true) : ¬(c = qMark) := by
  intro he; subst he; exact absurd h (by decide)

theorem isDigit_ne_t {c : Char} (h : c.isDigit = true) : ¬(c = 't') := by
  intro he; subst he; exact absurd h (by decide)

theorem isDigit_ne_f {c : Char} (h : c.isDigit = true) : ¬(c = 'f') := by
  intro he; subst he; exact absurd h (by decide)

theorem skipDigits_append :
    ∀ (ds : List Char) (c : Char) (X : List Char),
      (∀ d ∈ ds, d.isDigit = true) → c.isDigit = false →
      skipDigits (ds ++ c :: X) = c :: X := by
  intro ds
  induction ds with
  | nil =>
    intro c X _ hc
    show skipDigits (c :: X) = c :: X
    simp [skipDigits, hc]
  | cons d ds2 ih =>
    intro c X hall hc
    show skipDigits (d :: (ds2 ++ c :: X)) = c :: X
    simp only [skipDigits, hall d (by simp), if_true]
    exact ih c X (fun d2 h2 => hall d2 (by simp [h2])) hc

theorem parseVal_render (v : JVal) (c : Char) (X : List Char) (hc : c.isDigit = false) :
    parseVal (renderVal v ++ c :: X) = some (c :: X) := by
  cases v with
  | str s =>
    have he : renderVal (JVal.str s) ++ c :: X =
        qMark :: (escStr s.data ++ qMark :: c :: X) := by
      show (qMark :: (escStr s.data ++ [qMark])) ++ c :: X = _
      simp
    rw [he, parseVal.eq_def]
    simp [skipStrBody_escStr]
  | num n =>
    obtain ⟨hne, hdig⟩ := natDigits_spec n
    obtain ⟨d, ds, hd⟩ := List.exists_cons_of_ne_nil hne
    show parseVal (natDigits n ++ c :: X) = some (c :: X)
    rw [hd]
    have hdd : d.isDigit = true := hdig d (by rw [hd]; simp)
    show parseVal (d :: (ds ++ c :: X)) = some (c :: X)
    rw [parseVal.eq_def]
    simp [isDigit_ne_qMark hdd, isDigit_ne_t hdd, isDigit_ne_f hdd, hdd]
    exact skipDigits_append ds c X (fun d2 h2 => hdig d2 (by rw [hd]; simp [h2])) hc
  | jbool b =>
    cases b with
    | true =>
      show parseVal ('t' :: 'r' :: 'u' :: 'e' :: (c :: X)) = some (c :: X)
      rw [parseVal.eq_def]
      simp [show ¬('t' = qMark) from by decide]
    | false =>
      show parseVal ('f' :: 'a' :: 'l' :: 's' :: 'e' :: (c :: X)) = some (c :: X)
      rw [parseVal.eq_def]
      simp [show ¬('f' = qMark) from by decide, show ¬('f' = 't') from by decide]

theorem parseMember_render (m : String × JVal) (c : Char) (X : List Char)
    (hc : c.isDigit = false) :
    parseMember (renderMember m ++ c :: X) = some (c :: X) := by
  have he : renderMember m ++ c :: X =
      qMark :: (escStr m.1.data ++ qMark :: ':' :: (renderVal m.2 ++ c :: X)) := by
    show (qMark :: (escStr m.1.data ++ qMark :: ':' :: renderVal m.2)) ++ c :: X = _
    simp
  rw [he, parseMember.eq_def]
  simp [skipStrBody_escStr, parseVal_render m.2 c X hc]

theorem membersAux_render :
    ∀ (ms : List (String × JVal)) (fuel : Nat) (rest : List Char),
      ms ≠ [] → ms.length ≤ fuel →
      membersAux fuel (interSep ',' (ms.map renderMember) ++ rBrace :: rest) = some rest := by
  intro ms
  induction ms with
  | nil => intro fuel rest h; exact absurd rfl h
  | cons m t ih =>
    intro fuel rest _ hfuel
    cases t with
    | nil =>
      cases fuel with
      | zero => simp at hfuel
      | succ f =>
        show membersAux (f + 1) (renderMember m ++ rBrace :: rest) = some rest
        simp only [membersAux]
        rw [parseMember_render m rBrace rest (by decide)]
        simp [show ¬(rBrace = ',') from by decide]
    | cons m2 t2 =>
      cases fuel with
      | zero => simp at hfuel
      | succ f =>
        have he : interSep ',' ((m :: m2 :: t2).map renderMember) ++ rBrace :: rest =
            renderMember m ++ ',' :: (interSep ',' ((m2 :: t2).map renderMember) ++ rBrace :: rest) := by
          show (renderMember m ++ ',' :: interSep ',' ((m2 :: t2).map renderMember)) ++ rBrace :: rest = _
          simp
        rw [he]
        simp only [membersAux]
        rw [parseMember_render m ',' _ (by decide)]
        simp only [if_pos rfl]
        exact ih f rest (by simp) (by simpa using Nat.le_of_succ_le_succ hfuel)

theorem renderMember_length_pos (m : String × JVal) : 1 ≤ (renderMember m).length := by
  show 1 ≤ (qMark :: (escStr m.1.data ++ qMark :: ':' :: renderVal m.2)).length
  simp

theorem interSep_length_ge :
    ∀ ms : List (String × JVal),
      ms.length ≤ (interSep ',' (ms.map renderMember)).length + 1 := by
  intro ms
  induction ms with
  | nil => simp [interSep]
  | cons m t ih =>
    cases t with
    | nil =>
      have := renderMember_length_pos m
      show 1 ≤ (renderMember m).length + 1
      omega
    | cons m2 t2 =>
      show (m :: m2 :: t2).length ≤
        (renderMember m ++ ',' :: interSep ',' ((m2 :: t2).map renderMember)).length + 1
      rw [List.length_append]
      have h1 := renderMember_length_pos m
      simp only [List.length_cons] at *
      omega

theorem isJsonObjLine_renderObj (ms : List (String × JVal)) (h : ms ≠ []) :
    isJsonObjLine (renderObj ms) = true := by
  have hbound : ms.length ≤ (interSep ',' (ms.map renderMember) ++ [rBrace]).length + 1 := by
    rw [List.length_append]
    have := interSep_length_ge ms
    simp only [List.length_cons, List.length_nil] at *
    omega
  have hm := membersAux_render ms ((interSep ',' (ms.map renderMember) ++ [rBrace]).length + 1)
    [] h hbound
  show isJsonObjLine (lBrace :: (interSep ',' (ms.map renderMember) ++ [rBrace])) = true
  simp only [isJsonObjLine, if_pos rfl]
  simp only [List.length_append, List.length_cons, List.length_nil] at hm
  simp [hm]

theorem itemMembers_ne_nil (it : OpenAIFeedItem) : itemMembers it ≠ [] := by
  simp [itemMembers]

/-- Claim C6 (amended): for every nonempty record list, serializing and
splitting on the newline character yields exactly one line per record,
in order, each line the serialization of its record and independently a
well-formed JSON object; consecutive records are separated by exactly
one newline and none trails.  (Splitting the serialization of the empty
list yields one empty line, not zero — see the counterexample.) -/
theorem feedItemsToJsonl_roundtrip :
    ∀ items : List OpenAIFeedItem, items ≠ [] →
      splitOnChar nlChar (feedItemsToJsonl items).data = items.map stringifyItem ∧
      (splitOnChar nlChar (feedItemsToJsonl items).data).length = items.length ∧
      (∀ l ∈ splitOnChar nlChar (feedItemsToJsonl items).data, isJsonObjLine l = true) ∧
      (feedItemsToJsonl items).data.count nlChar = items.length - 1 ∧
      (feedItemsToJsonl items).data.getLast? ≠ some nlChar := by
  intro items hne
  have hmapne : items.map stringifyItem ≠ [] := by
    simpa using hne
  have hnonl : ∀ p ∈ items.map stringifyItem, nlChar ∉ p := by
    intro p hp
    rcases List.mem_map.mp hp with ⟨it, -, hit⟩
    rw [← hit]
    exact renderObj_no_nl _
  have hdata : (feedItemsToJsonl items).data = interSep nlChar (items.map stringifyItem) := rfl
  have hsplit : splitOnChar nlChar (feedItemsToJsonl items).data = items.map stringifyItem := by
    rw [hdata]
    exact splitOnChar_interSep nlChar _ hmapne hnonl
  refine ⟨hsplit, ?_, ?_, ?_, ?_⟩
  · rw [hsplit, List.length_map]
  · intro l hl
    rw [hsplit] at hl
    rcases List.mem_map.mp hl with ⟨it, -, hit⟩
    rw [← hit]
    exact isJsonObjLine_renderObj _ (itemMembers_ne_nil it)
  · rw [hdata, count_interSep nlChar _ hnonl, List.length_map]
  · rw [hdata]
    have hlast : (interSep nlChar (items.map stringifyItem)).getLast? = some rBrace := by
      apply interSep_getLast nlChar _ hmapne
      intro p hp
      rcases List.mem_map.mp hp with ⟨it, -, hit⟩
      rw [← hit]
      exact renderObj_getLast _
    rw [hlast]
    exact fun hx => absurd (Option.some.inj hx) (by decide)

/-- Counterexample to C6 as stated: for the empty record list (N = 0)
the serialized payload is the empty string, and splitting it on the
newline yields one line, not zero, and that line is not a JSON object. -/
theorem feedItemsToJsonl_empty_cex :
    feedItemsToJsonl [] = "" ∧
    splitOnChar nlChar (feedItemsToJsonl ([] : List OpenAIFeedItem)).data = [[]] ∧
    (splitOnChar nlChar (feedItemsToJsonl ([] : List OpenAIFeedItem)).data).length = 1 ∧
    isJsonObjLine [] = false :=
  ⟨rfl, rfl, rfl, rfl⟩

set_option maxRecDepth 8192 in
/-- Witness for the amended C6 on a concrete two-record list. -/
theorem feedItemsToJsonl_roundtrip_witness :
    splitOnChar nlChar (feedItemsToJsonl [exItem, exItem]).data =
      [exItem, exItem].map stringifyItem ∧
    (splitOnChar nlChar (feedItemsToJsonl [exItem, exItem]).data).length = 2 ∧
    (∀ l ∈ splitOnChar nlChar (feedItemsToJsonl [exItem, exItem]).data,
      isJsonObjLine l = true) ∧
    (feedItemsToJsonl [exItem, exItem]).data.count nlChar = 1 ∧
    (feedItemsToJsonl [exItem, exItem]).data.getLast? ≠ some nlChar :=
  feedItemsToJsonl_roundtrip [exItem, exItem] (by decide)

theorem getFeedSettings_cache (db : Db) (shop : String) (now : Nat) :
    ∀ s, ((getFeedSettings db shop now).2).cache s = db.cache s := by
  intro s
  unfold getFeedSettings
  rcases h : db.settings shop with _ | row
  · rfl
  · rfl

theorem getFeedSettings_settings (db : Db) (shop : String) (now : Nat) :
    ∀ s, ((getFeedSettings db shop now).2).settings s = db.settings s ∨
      (s = shop ∧ db.settings shop = none ∧
        ((getFeedSettings db shop now).2).settings s = some (defaultSettingsRow shop now)) := by
  intro s
  unfold getFeedSettings
  rcases h : db.settings shop with _ | row
  · by_cases hs : s = shop
    · right
      exact ⟨hs, rfl, by simp [setSettingsRow, hs]⟩
    · left
      simp [setSettingsRow, hs]
  · left
    rfl

/-- Claim C1 (amended): the cached-feed read is present exactly when a
cache row exists whose payload is non-null and non-empty; in that case
it returns the stored payload, count and timestamp.  A shop whose last
generation produced zero records stores an empty payload and therefore
reads as absent, exactly like a shop with no cache row. -/
theorem getCachedFeed_present_iff :
    (∀ db shop, (getCachedFeed db shop).isSome = true ↔
        ∃ row s, db.cache shop = some row ∧ row.feed_data = some s ∧ s ≠ "") ∧
    (∀ db shop row s, db.cache shop = some row → row.feed_data = some s → s ≠ "" →
        getCachedFeed db shop =
          some { feedData := s, productCount := row.product_count,
                 generatedAt := row.generated_at }) := by
  constructor
  · intro db shop
    unfold getCachedFeed
    rcases h : db.cache shop with _ | row
    · simp
    · rcases hf : row.feed_data with _ | s
      · simp [hf]
      · by_cases hs : s = ""
        · simp [hf, hs]
        · simp [hf, hs]
  · intro db shop row s h hf hs
    unfold getCachedFeed
    rw [h]
    dsimp only
    rw [hf]
    dsimp only
    rw [if_neg hs]

/-- Counterexample to C1 as stated: a generation that succeeds with zero
eligible records stores the empty payload, and `getCachedFeed` then
returns the absent result even though a cache row exists. -/
theorem getCachedFeed_empty_payload_cex :
    (generateFeed exEmptyDb "s.myshopify.com" exOracleOkEmpty 5).1.success = true ∧
    (generateFeed exEmptyDb "s.myshopify.com" exOracleOkEmpty 5).1.productCount = 0 ∧
    ((generateFeed exEmptyDb "s.myshopify.com" exOracleOkEmpty 5).2).cache "s.myshopify.com" =
      some { shop := "s.myshopify.com", feed_data := some "",
             product_count := 0, generated_at := 5 } ∧
    getCachedFeed (generateFeed exEmptyDb "s.myshopify.com" exOracleOkEmpty 5).2
      "s.myshopify.com" = none := by
  refine ⟨rfl, rfl, by decide, rfl⟩

/-- Claim C2 (amended): when `generateFeed` returns failure, the cache
row is untouched unless the failure happened in the settings-stamp
update after the cache insert already succeeded; and the settings row is
untouched except that the get-or-create read may have inserted the
default row for a previously unknown shop. -/
theorem generateFeed_failure_frame :
    ∀ (db : Db) (shop : String) (o : GenOracle) (now : Nat),
      (generateFeed db shop o now).1.success = false →
      ((∀ s, (generateFeed db shop o now).2.cache s = db.cache s) ∨
        (o.cacheWriteOk = true ∧ o.settingsWriteOk = false)) ∧
      (∀ s, (generateFeed db shop o now).2.settings s = db.settings s ∨
        (s = shop ∧ db.settings shop = none ∧
          (generateFeed db shop o now).2.settings s = some (defaultSettingsRow shop now))) := by
  intro db shop o now hfail
  rcases ho : o.shopInfoRes with e | si
  · constructor
    · left
      intro s
      simp only [generateFeed, ho]
      exact getFeedSettings_cache db shop now s
    · intro s
      simp only [generateFeed, ho]
      exact getFeedSettings_settings db shop now s
  · rcases hp : o.productsRes with e2 | products
    · constructor
      · left
        intro s
        simp only [generateFeed, ho, hp]
        exact getFeedSettings_cache db shop now s
      · intro s
        simp only [generateFeed, ho, hp]
        exact getFeedSettings_settings db shop now s
    · rcases hc : o.cacheWriteOk with _ | _
      · constructor
        · left
          intro s
          simp only [generateFeed, ho, hp, hc, Bool.false_eq_true, if_false]
          exact getFeedSettings_cache db shop now s
        · intro s
          simp only [generateFeed, ho, hp, hc, Bool.false_eq_true, if_false]
          exact getFeedSettings_settings db shop now s
      · rcases hw : o.settingsWriteOk with _ | _
        · constructor
          · right
            exact ⟨rfl, rfl⟩
          · intro s
            simp only [generateFeed, ho, hp, hc, hw, if_true, Bool.false_eq_true, if_false]
            exact getFeedSettings_settings db shop now s
        · exfalso
          simp only [generateFeed, ho, hp, hc, hw, if_true] at hfail
          exact Bool.true_eq_false.mp hfail

/-- Counterexample to C2 as stated: with the settings-stamp write
failing after a successful cache insert, `generateFeed` returns failure
yet both the cache row (newly written) and the settings row (created by
the get-or-create read) changed. -/
theorem generateFeed_partial_persist_cex :
    (generateFeed exEmptyDb "s.myshopify.com" exOracleSettingsFail 5).1.success = false ∧
    (generateFeed exEmptyDb "s.myshopify.com" exOracleSettingsFail 5).2.cache
        "s.myshopify.com" ≠ exEmptyDb.cache "s.myshopify.com" ∧
    (generateFeed exEmptyDb "s.myshopify.com" exOracleSettingsFail 5).2.settings
        "s.myshopify.com" ≠ exEmptyDb.settings "s.myshopify.com" := by
  refine ⟨rfl, by decide, by decide⟩

/-- Witness for the amended C2 at the settings-write-failure oracle. -/
theorem generateFeed_failure_frame_witness :
    (generateFeed exEmptyDb "s.myshopify.com" exOracleSettingsFail 5).1.success = false ∧
    (((∀ s, (generateFeed exEmptyDb "s.myshopify.com" exOracleSettingsFail 5).2.cache s =
          exEmptyDb.cache s) ∨
        (exOracleSettingsFail.cacheWriteOk = true ∧
          exOracleSettingsFail.settingsWriteOk = false)) ∧
      (∀ s, (generateFeed exEmptyDb "s.myshopify.com" exOracleSettingsFail 5).2.settings s =
          exEmptyDb.settings s ∨
        (s = "s.myshopify.com" ∧ exEmptyDb.settings "s.myshopify.com" = none ∧
          (generateFeed exEmptyDb "s.myshopify.com" exOracleSettingsFail 5).2.settings s =
            some (defaultSettingsRow "s.myshopify.com" 5)))) :=
  ⟨by decide,
   generateFeed_failure_frame exEmptyDb "s.myshopify.com" exOracleSettingsFail 5 (by decide)⟩

theorem isEmptyUpdate_eq {u : PartialSettings} (h : u.isEmptyUpdate = true) :
    u = {} := by
  cases u
  unfold PartialSettings.isEmptyUpdate at h
  simp only [Bool.and_eq_true, Option.isNone_iff_eq_none] at h
  obtain ⟨⟨⟨⟨⟨⟨⟨⟨⟨⟨⟨h1, h2⟩, h3⟩, h4⟩, h5⟩, h6⟩, h7⟩, h8⟩, h9⟩, h10⟩, h11⟩, h12⟩ := h
  subst h1 h2 h3 h4 h5 h6 h7 h8 h9 h10 h11 h12
  rfl

/-- Claim C8: the partial update overwrites exactly the present fields
(booleans stored as 0/1) plus the `updated_at` timestamp, keeps every
absent field and every unrelated column at its stored value, touches no
other row and no cache row, and performs no write at all when no
recognized field is present. -/
theorem updateFeedSettings_frame :
    ∀ (db : Db) (shop : String) (u : PartialSettings) (now : Nat) (row : SettingsRow),
      db.settings shop = some row →
      ∃ row2, (updateFeedSettings db shop u now).settings shop = some row2 ∧
        row2.enable_search = (match u.enable_search with
          | some b => if b then 1 else 0
          | none => row.enable_search) ∧
        row2.enable_checkout = (match u.enable_checkout with
          | some b => if b then 1 else 0
          | none => row.enable_checkout) ∧
        row2.seller_name = (match u.seller_name with
          | some v => v
          | none => row.seller_name) ∧
        row2.seller_url = (match u.seller_url with
          | some v => v
          | none => row.seller_url) ∧
        row2.privacy_policy_url = (match u.privacy_policy_url with
          | some v => v
          | none => row.privacy_policy_url) ∧
        row2.terms_of_service_url = (match u.terms_of_service_url with
          | some v => v
          | none => row.terms_of_service_url) ∧
        row2.return_policy_url = (match u.return_policy_url with
          | some v => v
          | none => row.return_policy_url) ∧
        row2.accepts_returns = (match u.accepts_returns with
          | some b => if b then 1 else 0
          | none => row.accepts_returns) ∧
        row2.return_deadline_days = (match u.return_deadline_days with
          | some v => v
          | none => row.return_deadline_days) ∧
        row2.accepts_exchanges = (match u.accepts_exchanges with
          | some b => if b then 1 else 0
          | none => row.accepts_exchanges) ∧
        row2.store_country = (match u.store_country with
          | some v => v
          | none => row.store_country) ∧
        row2.target_countries = (match u.target_countries with
          | some v => v
          | none => row.target_countries) ∧
        row2.updated_at = (if u.isEmptyUpdate then row.updated_at else now) ∧
        row2.shop = row.shop ∧
        row2.feed_generated_at = row.feed_generated_at ∧
        row2.product_count = row.product_count ∧
        row2.created_at = row.created_at ∧
        (∀ s2, s2 ≠ shop → (updateFeedSettings db shop u now).settings s2 = db.settings s2) ∧
        (∀ s2, (updateFeedSettings db shop u now).cache s2 = db.cache s2) ∧
        (u.isEmptyUpdate = true → updateFeedSettings db shop u now = db) := by
  intro db shop u now row hrow
  have hdb1 : (getFeedSettings db shop now).2 = db := by
    unfold getFeedSettings
    rw [hrow]
  by_cases hemp : u.isEmptyUpdate = true
  · rw [isEmptyUpdate_eq hemp]
    have hupd : updateFeedSettings db shop {} now = db := by
      unfold updateFeedSettings
      rw [hdb1]
      rfl
    exact ⟨row, by rw [hupd]; exact hrow, rfl, rfl, rfl, rfl, rfl, rfl, rfl, rfl,
      rfl, rfl, rfl, rfl, rfl, rfl, rfl, rfl, rfl,
      fun s2 _ => by rw [hupd], fun s2 => by rw [hupd], fun _ => hupd⟩
  · have hupd : updateFeedSettings db shop u now =
        setSettingsRow db shop (applyUpdate row u now) := by
      unfold updateFeedSettings
      rw [hdb1, if_neg hemp, hrow]
    refine ⟨applyUpdate row u now, by rw [hupd]; simp [setSettingsRow], rfl, rfl, rfl,
      rfl, rfl, rfl, rfl, rfl, rfl, rfl, rfl, rfl, ?_, rfl, rfl, rfl, rfl,
      ?_, ?_, fun h => absurd h hemp⟩
    · show (applyUpdate row u now).updated_at = _
      rw [if_neg hemp]
      rfl
    · intro s2 hs2
      rw [hupd]
      simp [setSettingsRow, hs2]
    · intro s2
      rw [hupd]
      rfl

/-- Claim C9: for a shop with no settings row, one `get` call inserts
exactly one row carrying the documented defaults (search on, checkout
off, returns accepted with a 30-day deadline, exchanges accepted,
country US) and returns those defaults; a second call inserts nothing
and returns a value equal to the first. -/
theorem getFeedSettings_get_or_create :
    ∀ (db : Db) (shop : String) (now now2 : Nat), db.settings shop = none →
      (getFeedSettings db shop now).1 = defaultFeedSettings shop ∧
      ((getFeedSettings db shop now).2).settings shop = some (defaultSettingsRow shop now) ∧
      (∀ s, s ≠ shop → ((getFeedSettings db shop now).2).settings s = db.settings s) ∧
      (∀ s, ((getFeedSettings db shop now).2).cache s = db.cache s) ∧
      (getFeedSettings ((getFeedSettings db shop now).2) shop now2).2 =
        (getFeedSettings db shop now).2 ∧
      (getFeedSettings ((getFeedSettings db shop now).2) shop now2).1 =
        (getFeedSettings db shop now).1 := by
  intro db shop now now2 hnone
  have h1 : getFeedSettings db shop now =
      (defaultFeedSettings shop, setSettingsRow db shop (defaultSettingsRow shop now)) := by
    unfold getFeedSettings
    rw [hnone]
  have hrow2 : (setSettingsRow db shop (defaultSettingsRow shop now)).settings shop =
      some (defaultSettingsRow shop now) := by
    simp [setSettingsRow]
  have h2 : getFeedSettings (setSettingsRow db shop (defaultSettingsRow shop now)) shop now2 =
      (settingsOfRow (defaultSettingsRow shop now),
        setSettingsRow db shop (defaultSettingsRow shop now)) := by
    unfold getFeedSettings
    rw [hrow2]
  have hcoerce : settingsOfRow (defaultSettingsRow shop now) = defaultFeedSettings shop := rfl
  rw [h1]
  refine ⟨rfl, hrow2, ?_, ?_, by rw [h2], by rw [h2]; exact hcoerce⟩
  · intro s hs
    simp [setSettingsRow, hs]
  · intro s
    rfl

/-- Witness for C8 at a concrete one-field update. -/
theorem updateFeedSettings_frame_witness :
    ∃ row2,
      (updateFeedSettings exDbWithSettings "s.myshopify.com" exPartial 7).settings
        "s.myshopify.com" = some row2 ∧
      row2.enable_search = (match exPartial.enable_search with
        | some b => if b then 1 else 0
        | none => exSettingsRow.enable_search) ∧
      row2.enable_checkout = (match exPartial.enable_checkout with
        | some b => if b then 1 else 0
        | none => exSettingsRow.enable_checkout) ∧
      row2.seller_name = (match exPartial.seller_name with
        | some v => v
        | none => exSettingsRow.seller_name) ∧
      row2.seller_url = (match exPartial.seller_url with
        | some v => v
        | none => exSettingsRow.seller_url) ∧
      row2.privacy_policy_url = (match exPartial.privacy_policy_url with
        | some v => v
        | none => exSettingsRow.privacy_policy_url) ∧
      row2.terms_of_service_url = (match exPartial.terms_of_service_url with
        | some v => v
        | none => exSettingsRow.terms_of_service_url) ∧
      row2.return_policy_url = (match exPartial.return_policy_url with
        | some v => v
        | none => exSettingsRow.return_policy_url) ∧
      row2.accepts_returns = (match exPartial.accepts_returns with
        | some b => if b then 1 else 0
        | none => exSettingsRow.accepts_returns) ∧
      row2.return_deadline_days = (match exPartial.return_deadline_days with
        | some v => v
        | none => exSettingsRow.return_deadline_days) ∧
      row2.accepts_exchanges = (match exPartial.accepts_exchanges with
        | some b => if b then 1 else 0
        | none => exSettingsRow.accepts_exchanges) ∧
      row2.store_country = (match exPartial.store_country with
        | some v => v
        | none => exSettingsRow.store_country) ∧
      row2.target_countries = (match exPartial.target_countries with
        | some v => v
        | none => exSettingsRow.target_countries) ∧
      row2.updated_at = (if exPartial.isEmptyUpdate then exSettingsRow.updated_at else 7) ∧
      row2.shop = exSettingsRow.shop ∧
      row2.feed_generated_at = exSettingsRow.feed_generated_at ∧
      row2.product_count = exSettingsRow.product_count ∧
      row2.created_at = exSettingsRow.created_at ∧
      (∀ s2, s2 ≠ "s.myshopify.com" →
        (updateFeedSettings exDbWithSettings "s.myshopify.com" exPartial 7).settings s2 =
          exDbWithSettings.settings s2) ∧
      (∀ s2, (updateFeedSettings exDbWithSettings "s.myshopify.com" exPartial 7).cache s2 =
        exDbWithSettings.cache s2) ∧
      (exPartial.isEmptyUpdate = true →
        updateFeedSettings exDbWithSettings "s.myshopify.com" exPartial 7 = exDbWithSettings) :=
  updateFeedSettings_frame exDbWithSettings "s.myshopify.com" exPartial 7 exSettingsRow
    (by decide)

/-- Witness for C9 at a concrete empty database. -/
theorem getFeedSettings_get_or_create_witness :
    (getFeedSettings exEmptyDb "s.myshopify.com" 5).1 =
      defaultFeedSettings "s.myshopify.com" ∧
    ((getFeedSettings exEmptyDb "s.myshopify.com" 5).2).settings "s.myshopify.com" =
      some (defaultSettingsRow "s.myshopify.com" 5) ∧
    (∀ s, s ≠ "s.myshopify.com" →
      ((getFeedSettings exEmptyDb "s.myshopify.com" 5).2).settings s =
        exEmptyDb.settings s) ∧
    (∀ s, ((getFeedSettings exEmptyDb "s.myshopify.com" 5).2).cache s =
      exEmptyDb.cache s) ∧
    (getFeedSettings ((getFeedSettings exEmptyDb "s.myshopify.com" 5).2)
        "s.myshopify.com" 9).2 =
      (getFeedSettings exEmptyDb "s.myshopify.com" 5).2 ∧
    (getFeedSettings ((getFeedSettings exEmptyDb "s.myshopify.com" 5).2)
        "s.myshopify.com" 9).1 =
      (getFeedSettings exEmptyDb "s.myshopify.com" 5).1 :=
  getFeedSettings_get_or_create exEmptyDb "s.myshopify.com" 5 9 (by decide)
